import Mathlib

/-!
# Dispenser firmware (firmware/dispenser/dispenser.c)

A shallow embedding of the pump-node firmware.  The global variables of the C
file, the peripheral registers the properties depend on (the motor compare register
`OCR0B`, the ADC control registers), the two EEPROM slots, the LED output and
the serial output are the fields of one `State` record.  Every interrupt
handler and every main-loop routine is a function on that record; values read
from the hardware (port pins, ADC result registers, serial bytes) are explicit
arguments.  Unsigned C integers are natural numbers, reduced modulo their width
where the C code can wrap.
-/

namespace Dispenser

/-! ## Machine integers -/

/-- Truncation to `uint8_t`. -/
def u8 (n : Nat) : Nat := n % 2 ^ 8

/-- Truncation to `uint16_t`. -/
def u16 (n : Nat) : Nat := n % 2 ^ 16

/-- Truncation to `uint32_t`. -/
def u32 (n : Nat) : Nat := n % 2 ^ 32

/-! ## Constants of the source file -/

def RESET_DURATION : Nat := 1
def SYNC_COUNT : Nat := 10
def NUM_ADC_SAMPLES : Nat := 5
def MAX_CURRENT_SENSE_CYCLES : Nat := 3
def TICKS_SAVE_THRESHOLD : Nat := 1000

/-! ## Bit positions of the device header

The pin assignment is the one listed in the comment above `setup` (PD2 reset,
PD6/PD7 hall 0/1, PB0/PB1 hall 2/3, PB2 sync); the ADC bit positions are those
of the ATmega register `ADCSRA` / `ADMUX` (`adc_read` polls bit 6, `ADSC`). -/

def PIND2 : Nat := 2
def PIND6 : Nat := 6
def PIND7 : Nat := 7
def PINB0 : Nat := 0
def PINB1 : Nat := 1
def PINB2 : Nat := 2
def ADPS0 : Nat := 0
def ADPS1 : Nat := 1
def ADPS2 : Nat := 2
def ADIE : Nat := 3
def ADSC : Nat := 6
def ADEN : Nat := 7
def MUX0 : Nat := 0
def REFS0 : Nat := 6
def REFS1 : Nat := 7

/-! ## Data model -/

/-- RGB triple produced by a pattern function (`color_t` of led.h). -/
structure color_t where
  red : Nat
  green : Nat
  blue : Nat
deriving DecidableEq

/-- The pattern functions a `g_led_function` pointer can hold.  The functions
themselves live in led.c; the pointer is modelled by its name and `NULL` by
`Option.none`. -/
inductive LedFunction
  | led_pattern_current_sense
  | led_pattern_hue
  | led_pattern_dispense
  | led_pattern_drink_done
  | led_pattern_clean
deriving DecidableEq

/-- Packet type codes switched on by `main` (the numeric codes are in packet.h);
`other` stands for every code that has no `case`. -/
inductive PacketType
  | PACKET_PING
  | PACKET_SET_MOTOR_SPEED
  | PACKET_TICK_DISPENSE
  | PACKET_TIME_DISPENSE
  | PACKET_IS_DISPENSING
  | PACKET_LIQUID_LEVEL
  | PACKET_UPDATE_LIQUID_LEVEL
  | PACKET_LED_OFF
  | PACKET_LED_IDLE
  | PACKET_LED_DISPENSE
  | PACKET_LED_DRINK_DONE
  | PACKET_LED_CLEAN
  | PACKET_COMM_TEST
  | PACKET_ID_CONFLICT
  | PACKET_SET_CS_THRESHOLD
  | PACKET_SAVED_TICK_COUNT
  | PACKET_RESET_SAVED_TICK_COUNT
  | other (code : Nat)
deriving DecidableEq

/-- A received packet (`packet_t`): destination, type and the three views of
the payload union that `main` reads. -/
structure packet_t where
  dest : Nat
  type : PacketType
  uint8_0 : Nat
  uint16_0 : Nat
  uint32 : Nat
deriving DecidableEq

/-- One item written to the serial line: a raw byte (`serial_tx`) or a framed
reply (`send_packet8` / `send_packet16`). -/
inductive SerialOut
  | byte (b : Nat)
  | packet8 (type : PacketType) (value : Nat)
  | packet16 (type : PacketType) (value : Nat)
deriving DecidableEq

/-- The firmware state: the globals of dispenser.c plus the modelled hardware. -/
structure State where
  g_liquid_level : Nat
  g_time : Nat
  g_reset_fe_time : Nat
  g_reset : Nat
  g_ticks : Nat
  g_dispense_target_ticks : Nat
  g_is_dispensing : Nat
  g_hall0 : Nat
  g_hall1 : Nat
  g_hall2 : Nat
  g_hall3 : Nat
  g_sync : Nat
  g_sync_count : Nat
  g_pattern_t : Nat
  g_sync_divisor : Nat
  g_led_function : Option LedFunction
  g_current_sense_num_cycles : Nat
  g_current_sense_threshold : Nat
  g_current_sense_detected : Nat
  /-- Timer-0 compare register driving the motor PWM. -/
  OCR0B : Nat
  /-- ADC control and status register. -/
  ADCSRA : Nat
  /-- ADC multiplexer register. -/
  ADMUX : Nat
  /-- EEPROM byte at address 0: the configured pump id. -/
  ee_pump_id : Nat
  /-- EEPROM double word at address 1: the lifetime tick total. -/
  ee_run_time_ticks : Nat
  /-- Colour last written to the LED. -/
  led : color_t
  /-- Everything sent over the serial line, oldest first. -/
  tx : List SerialOut
deriving DecidableEq

/-- The values of the static initialisers, with an empty serial log. -/
def State.init (id total : Nat) : State :=
  { g_liquid_level := 0, g_time := 0, g_reset_fe_time := 0, g_reset := 0,
    g_ticks := 0, g_dispense_target_ticks := 0, g_is_dispensing := 0,
    g_hall0 := 0, g_hall1 := 0, g_hall2 := 0, g_hall3 := 0, g_sync := 0,
    g_sync_count := 0, g_pattern_t := 0, g_sync_divisor := 0,
    g_led_function := none, g_current_sense_num_cycles := 0,
    g_current_sense_threshold := 465, g_current_sense_detected := 0,
    OCR0B := 0, ADCSRA := 0, ADMUX := 0, ee_pump_id := id,
    ee_run_time_ticks := total, led := ⟨0, 0, 0⟩, tx := [] }

/-- The speed last handed to `set_motor_speed`, read back from `OCR0B`. -/
def motor_speed (s : State) : Nat := 255 - s.OCR0B

/-! ## Collaborators (led.h, serial.h, packet.h) -/

/-- Modelled from the spec: the LED output of led.h, which accepts an RGB
triple; the model records the triple. -/
def set_led_rgb (s : State) (r g b : Nat) : State :=
  { s with led := ⟨r, g, b⟩ }

/-- Modelled from the spec: the LED output of led.h without the settling
delay; the model records the triple. -/
def set_led_rgb_no_delay (s : State) (r g b : Nat) : State :=
  { s with led := ⟨r, g, b⟩ }

/-- Modelled from the spec: blocking byte send of serial.h. -/
def serial_tx (s : State) (ch : Nat) : State :=
  { s with tx := s.tx ++ [SerialOut.byte ch] }

/-- Modelled from the spec: 8-bit value reply of packet.h. -/
def send_packet8 (s : State) (type : PacketType) (v : Nat) : State :=
  { s with tx := s.tx ++ [SerialOut.packet8 type (u8 v)] }

/-- Modelled from the spec: 16-bit value reply of packet.h. -/
def send_packet16 (s : State) (type : PacketType) (v : Nat) : State :=
  { s with tx := s.tx ++ [SerialOut.packet16 type (u16 v)] }

/-- Modelled from the spec: `serial_init` of serial.h configures the UART and
changes nothing the model records. -/
def serial_init (s : State) : State := s

/-! ## Motor and ADC helpers -/

/-- Source: `set_motor_speed`. -/
def set_motor_speed (s : State) (speed : Nat) : State :=
  { s with OCR0B := 255 - u8 speed }

/-- Source: `adc_shutdown`: clear `ADEN`. -/
def adc_shutdown (s : State) : State :=
  { s with ADCSRA := s.ADCSRA &&& (255 - (1 <<< ADEN)) }

/-- Source: `adc_liquid_level_setup`. -/
def adc_liquid_level_setup (s : State) : State :=
  let s := { s with ADCSRA := 1 <<< ADPS1 }
  let s := { s with ADMUX := (1 <<< REFS0) ||| (1 <<< MUX0) }
  { s with ADCSRA := s.ADCSRA ||| (1 <<< ADEN) }

/-- Source: `setup`.  Of the registers it programs only `OCR0B` is part of the
model; the remaining writes configure pins, timers and interrupt masks. -/
def setup (s : State) : State :=
  { serial_init s with OCR0B := 0 }

/-- Source: `set_led_pattern`. -/
def set_led_pattern (s : State) (func : Option LedFunction) (sync_divisor : Nat) : State :=
  let s := if func = none then set_led_rgb s 0 0 0 else s
  let s := { s with g_pattern_t := 0 }
  let s := { s with g_sync_divisor := u8 sync_divisor }
  { s with g_led_function := func }

/-! ## Interrupt handlers -/

/-- Source: `ISR(TIMER1_OVF_vect)`. -/
def TIMER1_OVF_vect (s : State) : State :=
  { s with g_time := u32 (s.g_time + 1) }

/-- Source: `ISR(INT0_vect)`; `PIND` is the port value read by the handler. -/
def INT0_vect (s : State) (PIND : Nat) : State :=
  if PIND &&& (1 <<< PIND2) ≠ 0 then
    { s with g_reset_fe_time := u32 (s.g_time + RESET_DURATION) }
  else
    let s := if s.g_reset_fe_time > 0 ∧ s.g_time ≥ s.g_reset_fe_time then
      { s with g_reset := 1 } else s
    { s with g_reset_fe_time := 0 }

/-- Source: `check_dispense_complete_isr`. -/
def check_dispense_complete_isr (s : State) : State :=
  if s.g_dispense_target_ticks > 0 ∧ s.g_ticks ≥ s.g_dispense_target_ticks then
    let s := { s with g_dispense_target_ticks := 0 }
    let s := { s with g_is_dispensing := 0 }
    let s := set_motor_speed s 0
    adc_shutdown s
  else s

/-- Source: `ISR(PCINT0_vect)`; `PINB` is the port value read by the handler. -/
def PCINT0_vect (s : State) (PINB : Nat) : State :=
  let state := PINB &&& (1 <<< PINB0)
  let s := if state ≠ s.g_hall2 then
    { s with g_hall2 := state, g_ticks := u32 (s.g_ticks + 1) } else s
  let state := PINB &&& (1 <<< PINB1)
  let s := if state ≠ s.g_hall3 then
    { s with g_hall3 := state, g_ticks := u32 (s.g_ticks + 1) } else s
  let s := check_dispense_complete_isr s
  let state := PINB &&& (1 <<< PINB2)
  if state ≠ s.g_sync then
    { s with g_sync_count := u32 (s.g_sync_count + 1), g_sync := state }
  else s

/-- Source: `ISR(PCINT2_vect)`; `PIND` is the port value read by the handler. -/
def PCINT2_vect (s : State) (PIND : Nat) : State :=
  let state := PIND &&& (1 <<< PIND6)
  let s := if state ≠ s.g_hall0 then
    { s with g_hall0 := state, g_ticks := u32 (s.g_ticks + 1) } else s
  let state := PIND &&& (1 <<< PIND7)
  let s := if state ≠ s.g_hall1 then
    { s with g_hall1 := state, g_ticks := u32 (s.g_ticks + 1) } else s
  check_dispense_complete_isr s

/-- The 16-bit sample the ADC handler assembles from `ADCL` and `ADCH`. -/
def adc_data (ADCL ADCH : Nat) : Nat :=
  let low := u8 ADCL
  let hi := u8 ADCH
  u16 ((hi <<< 8) ||| low)

/-- Source: `ISR(ADC_vect)`; `ADCL`, `ADCH` are the result registers. -/
def ADC_vect (s : State) (ADCL ADCH : Nat) : State :=
  let data := adc_data ADCL ADCH
  let s := if data ≥ s.g_current_sense_threshold then
    { s with g_current_sense_num_cycles := u8 (s.g_current_sense_num_cycles + 1) } else s
  let s := if s.g_current_sense_num_cycles ≥ MAX_CURRENT_SENSE_CYCLES then
    let s := set_motor_speed s 0
    let s := { s with g_is_dispensing := 0 }
    let s := { s with g_dispense_target_ticks := 0 }
    let s := set_led_pattern s (some LedFunction.led_pattern_current_sense) 20
    { s with g_current_sense_detected := 1 }
  else s
  if s.g_is_dispensing ≠ 0 then
    { s with ADCSRA := s.ADCSRA ||| (1 <<< ADSC) }
  else s

/-! ## Main-loop routines -/

/-- Source: `check_reset`: the returned byte and the state it leaves. -/
def check_reset (s : State) : Nat × State :=
  let reset := u8 s.g_reset
  (reset, s)

/-- Source: `dispense_ticks`. -/
def dispense_ticks (s : State) (ticks : Nat) : State :=
  let dispensing := s.g_is_dispensing
  if dispensing ≠ 0 then s
  else
    let s := { s with g_dispense_target_ticks := u32 (s.g_ticks + ticks) }
    let s := { s with g_is_dispensing := 1 }
    let s := { s with ADCSRA := (1 <<< ADPS0) ||| (1 <<< ADPS1) ||| (1 <<< ADPS2) ||| (1 <<< ADIE) }
    let s := { s with ADMUX := (1 <<< REFS0) ||| (0 <<< REFS1) }
    let s := { s with ADCSRA := s.ADCSRA ||| (1 <<< ADEN) }
    let s := { s with ADCSRA := s.ADCSRA ||| (1 <<< ADSC) }
    set_motor_speed s 255

/-- Source: `is_dispensing`. -/
def is_dispensing (s : State) : State :=
  let dispensing := s.g_is_dispensing
  send_packet8 s PacketType.PACKET_IS_DISPENSING dispensing

/-- The delay loop of `run_motor_timed`; the argument counts the iterations
still allowed by `t < duration`.  `_delay_ms` changes nothing in the model. -/
def run_motor_timed_loop (s : State) : Nat → State
  | 0 => s
  | n + 1 =>
    if (check_reset s).1 ≠ 0 then (check_reset s).2
    else run_motor_timed_loop (check_reset s).2 n

/-- Source: `run_motor_timed`. -/
def run_motor_timed (s : State) (duration : Nat) : State :=
  let s := set_motor_speed s 255
  let s := run_motor_timed_loop s (u32 duration)
  set_motor_speed s 0

/-- Source: `adc_read`; `ADCL`, `ADCH` are the result registers once the
hardware has cleared `ADSC`. -/
def adc_read (s : State) (ADCL ADCH : Nat) : Nat × State :=
  let s := { s with ADCSRA := s.ADCSRA ||| (1 <<< ADSC) }
  let s := { s with ADCSRA := s.ADCSRA &&& (255 - (1 <<< ADSC)) }
  (adc_data ADCL ADCH, s)

/-- Source: `update_liquid_level`; `samples i` is the register pair of the
`i`-th conversion. -/
def update_liquid_level (s : State) (samples : Nat → Nat × Nat) : State :=
  let s := adc_liquid_level_setup s
  let r := (List.range NUM_ADC_SAMPLES).foldl
    (fun (acc : Nat × State) i =>
      let x := adc_read acc.2 (samples i).1 (samples i).2
      (u16 (acc.1 + x.1), x.2)) (0, s)
  let s := adc_shutdown r.2
  { s with g_liquid_level := u16 (r.1 / NUM_ADC_SAMPLES) }

/-- Source: `get_liquid_level`. -/
def get_liquid_level (s : State) : State :=
  send_packet16 s PacketType.PACKET_LIQUID_LEVEL s.g_liquid_level

/-- Source: `idle`; `render` stands for calling the installed pattern function
of led.c on the frame number. -/
def idle (render : LedFunction → Nat → color_t) (s : State) : State :=
  let animate := decide (s.g_sync_count ≥ s.g_sync_divisor)
  let s := if animate then { s with g_sync_count := 0 } else s
  let s : State :=
    match animate, s.g_led_function with
    | true, some f =>
      let t := s.g_pattern_t
      let s := { s with g_pattern_t := u32 (s.g_pattern_t + 1) }
      let c := render f t
      set_led_rgb_no_delay s c.red c.green c.blue
    | _, _ => s
  let ticks : Nat := s.g_ticks
  let is_dispensing : Nat := s.g_is_dispensing
  if is_dispensing = 0 then
    if ticks > TICKS_SAVE_THRESHOLD then
      let ticks_to_save := ticks
      let s := { s with g_ticks := 0 }
      let ticks_to_save := u32 (ticks_to_save + s.ee_run_time_ticks)
      { s with ee_run_time_ticks := ticks_to_save }
    else s
  else s

/-- Source: `reset_saved_tick_count`. -/
def reset_saved_tick_count (s : State) : State :=
  let dispensing := s.g_is_dispensing
  if dispensing ≠ 0 then s
  else
    let s := { s with g_ticks := 0 }
    { s with ee_run_time_ticks := 0 }

/-- Source: `get_saved_tick_count`. -/
def get_saved_tick_count (s : State) : State :=
  let ticks := s.g_ticks
  send_packet16 s PacketType.PACKET_SAVED_TICK_COUNT (u32 (ticks + s.ee_run_time_ticks))

/-- Source: `comm_test`.  Interrupts are off for the whole routine, so the
reset latch cannot change while it runs: with the latch set the echo loop is
skipped, with it clear the loop never ends, and the state returned is the one
reached after echoing the received bytes `rx`. -/
def comm_test (s : State) (rx : List Nat) : State :=
  let s := set_led_rgb s 0 255 255
  if (check_reset s).1 ≠ 0 then (check_reset s).2
  else rx.foldl (fun s ch => serial_tx s ch) (check_reset s).2

/-- Source: `id_conflict`: the state in which the routine waits for the reset
latch (the wait loop itself changes nothing). -/
def id_conflict (s : State) : State :=
  set_led_rgb s 255 0 0

/-! ## Interrupts as events -/

/-- One invocation of an interrupt handler together with the hardware values
the handler reads. -/
inductive Irq
  | TIMER1_OVF
  | INT0 (PIND : Nat)
  | PCINT0 (PINB : Nat)
  | PCINT2 (PIND : Nat)
  | ADC (ADCL ADCH : Nat)
deriving DecidableEq

/-- Run one interrupt handler. -/
def isr (s : State) : Irq → State
  | Irq.TIMER1_OVF => TIMER1_OVF_vect s
  | Irq.INT0 PIND => INT0_vect s PIND
  | Irq.PCINT0 PINB => PCINT0_vect s PINB
  | Irq.PCINT2 PIND => PCINT2_vect s PIND
  | Irq.ADC ADCL ADCH => ADC_vect s ADCL ADCH

/-- Run a sequence of interrupt handlers, first one first. -/
def isrs (s : State) (is : List Irq) : State := is.foldl isr s

/-! ## Address negotiation -/

/-- What happens next while `address_exchange` runs: a poll of `serial_rx_nb`
that delivers a byte, a poll that delivers nothing, or an interrupt. -/
inductive BusEvent
  | rx (ch : Nat)
  | norx
  | irq (i : Irq)
deriving DecidableEq

/-- The `for(;;);` of an unconfigured node: only interrupts still run. -/
def address_exchange_halt (s : State) : List BusEvent → State
  | [] => s
  | BusEvent.irq i :: rest => address_exchange_halt (isr s i) rest
  | _ :: rest => address_exchange_halt s rest

/-- The receive loop of `address_exchange`.  The result is the returned byte,
or `none` when the events end with the loop still running, and the state
reached. -/
def address_exchange_loop (id : Nat) (s : State) : List BusEvent → Option Nat × State
  | [] => (none, s)
  | BusEvent.irq i :: rest => address_exchange_loop id (isr s i) rest
  | BusEvent.norx :: rest =>
    if (check_reset s).1 ≠ 0 then (some 0xFF, (check_reset s).2)
    else address_exchange_loop id (check_reset s).2 rest
  | BusEvent.rx ch :: rest =>
    if ch = 0xFF then (some id, set_led_rgb s 0 255 0)
    else if ch = 63 then address_exchange_loop id (serial_tx s id) rest
    else address_exchange_loop id s rest

/-- Source: `address_exchange` (63 is the character `?`). -/
def address_exchange (s : State) (events : List BusEvent) : Option Nat × State :=
  let s := set_led_rgb s 0 0 255
  let id := u8 s.ee_pump_id
  if id = 0 ∨ id = 255 then
    let s := set_led_rgb s 255 0 0
    (none, address_exchange_halt s events)
  else address_exchange_loop id s events

/-! ## The main loop -/

/-- Source: `main`, the statements at the top of the outer loop, up to the
call of `address_exchange`. -/
def main_loop_init (s : State) : State :=
  let s := { s with g_reset := 0 }
  let s := { s with g_current_sense_detected := 0 }
  let s := { s with g_current_sense_num_cycles := 0 }
  let s := setup s
  let s := serial_init s
  let s := set_motor_speed s 0
  set_led_rgb s 0 0 255

/-- Hardware values consumed while one command runs: the ADC register pairs
read by `update_liquid_level` and the serial bytes echoed by `comm_test`. -/
structure HwInput where
  samples : Nat → Nat × Nat
  rx : List Nat

/-- Source: `main`, the `switch (p.type)` (l.520-582).  `cs` is the local copy
of the fault flag that the switch tests; `s` is the state at the moment the
switch runs. -/
def main_switch (cs : Nat) (s : State) (p : packet_t) (hw : HwInput) : State :=
  match p.type with
  | PacketType.PACKET_PING => s
  | PacketType.PACKET_SET_MOTOR_SPEED =>
    if cs = 0 then set_motor_speed s p.uint8_0 else s
  | PacketType.PACKET_TICK_DISPENSE =>
    if cs = 0 then dispense_ticks s p.uint32 else s
  | PacketType.PACKET_TIME_DISPENSE =>
    if cs = 0 then run_motor_timed s p.uint32 else s
  | PacketType.PACKET_IS_DISPENSING => is_dispensing s
  | PacketType.PACKET_LIQUID_LEVEL => get_liquid_level s
  | PacketType.PACKET_UPDATE_LIQUID_LEVEL => update_liquid_level s hw.samples
  | PacketType.PACKET_LED_OFF => set_led_pattern s none 255
  | PacketType.PACKET_LED_IDLE =>
    if cs = 0 then set_led_pattern s (some LedFunction.led_pattern_hue) 20 else s
  | PacketType.PACKET_LED_DISPENSE =>
    if cs = 0 then set_led_pattern s (some LedFunction.led_pattern_dispense) 5 else s
  | PacketType.PACKET_LED_DRINK_DONE =>
    if cs = 0 then set_led_pattern s (some LedFunction.led_pattern_drink_done) 10 else s
  | PacketType.PACKET_LED_CLEAN =>
    if cs = 0 then set_led_pattern s (some LedFunction.led_pattern_clean) 10 else s
  | PacketType.PACKET_COMM_TEST => comm_test s hw.rx
  | PacketType.PACKET_ID_CONFLICT => id_conflict s
  | PacketType.PACKET_SET_CS_THRESHOLD => { s with g_current_sense_threshold := u16 p.uint16_0 }
  | PacketType.PACKET_SAVED_TICK_COUNT => get_saved_tick_count s
  | PacketType.PACKET_RESET_SAVED_TICK_COUNT => reset_saved_tick_count s
  | PacketType.other _ => s

/-- Source: `main`, l.516-582 with no interrupt between the snapshot
`cli(); cs = g_current_sense_detected; sei();` and the switch. -/
def main_dispatch (s : State) (p : packet_t) (hw : HwInput) : State :=
  main_switch s.g_current_sense_detected s p hw

/-- Source: `main`, l.516-582 as the processor runs it.  The snapshot of the
fault flag is its own critical section (l.516-518); the switch that follows
runs with interrupts enabled, so the handlers `irqs` run after the snapshot and
before the command is carried out. -/
def main_dispatch_interleaved (s : State) (p : packet_t) (hw : HwInput)
    (irqs : List Irq) : State :=
  main_switch s.g_current_sense_detected (isrs s irqs) p hw

/-- One thing that happens to the node between two bus resets: a command is
dispatched, an interrupt handler runs, or the main loop calls `idle`.  Each is
one atomic step: no handler runs inside a command or inside `idle`
(`main_dispatch_interleaved`, `idle_interleaved` and `Activity` lift that
restriction).  A command that busy-waits (`comm_test`, `id_conflict`) is
represented by the state in which it waits. -/
inductive Action
  | command (p : packet_t) (hw : HwInput)
  | irq (i : Irq)
  | idle

/-- Run one action. -/
def step (render : LedFunction → Nat → color_t) (s : State) : Action → State
  | Action.command p hw => main_dispatch s p hw
  | Action.irq i => isr s i
  | Action.idle => idle render s

/-- Run a sequence of actions, first one first. -/
def run (render : LedFunction → Nat → color_t) (s : State) (as : List Action) : State :=
  as.foldl (step render) s

/-! ## The dispatcher loop -/

/-- Return codes of `receive_packet` (packet.h); `other` stands for any code
the loop does not test for. -/
inductive CommResult
  | COMM_OK
  | COMM_CRC_FAIL
  | COMM_RESET
  | other (code : Nat)
deriving DecidableEq

/-- One received unit: the return code of `receive_packet`, the packet it
filled in, and the hardware values consumed if the command runs. -/
structure Received where
  code : CommResult
  p : packet_t
  hw : HwInput

/-- Source: `main`, the body of the inner `for` loop after `receive_packet` has
returned.  `DEST_BROADCAST` is the broadcast address of packet.h.  The flag is
false when the body leaves the loop by `break`. -/
def main_loop_body (DEST_BROADCAST id : Nat) (s : State) (u : Received) : Bool × State :=
  if u.code = CommResult.COMM_CRC_FAIL then (true, s)
  else if u.code = CommResult.COMM_RESET then (false, s)
  else if u.code = CommResult.COMM_OK ∧ (u.p.dest = DEST_BROADCAST ∨ u.p.dest = id) then
    (true, main_dispatch s u.p u.hw)
  else (true, s)

/-- Whether the loop body runs the `switch` on the unit. -/
def dispatches (DEST_BROADCAST id : Nat) (u : Received) : Bool :=
  decide (u.code = CommResult.COMM_OK ∧ (u.p.dest = DEST_BROADCAST ∨ u.p.dest = id))

/-- What the inner loop of `main` did: the state reached, how many units it
received and how many commands it dispatched. -/
structure LoopResult where
  state : State
  received : Nat
  dispatched : Nat

/-- Source: `main`, the inner loop `for(; !check_reset();)` over the units the
bus delivers. -/
def main_dispatch_loop (DEST_BROADCAST id : Nat) : State → List Received → LoopResult
  | s, [] => ⟨s, 0, 0⟩
  | s, u :: rest =>
    if (check_reset s).1 ≠ 0 then ⟨(check_reset s).2, 0, 0⟩
    else
      let r := main_loop_body DEST_BROADCAST id (check_reset s).2 u
      let d := if dispatches DEST_BROADCAST id u then 1 else 0
      if r.1 then
        let l := main_dispatch_loop DEST_BROADCAST id r.2 rest
        ⟨l.state, l.received + 1, l.dispatched + d⟩
      else ⟨r.2, 1, d⟩

/-! ## `idle` with interrupts between its critical sections -/

/-- Source: `idle`, first critical section: test and clear the sync count. -/
def idle_sync (s : State) : Bool × State :=
  let animate := decide (s.g_sync_count ≥ s.g_sync_divisor)
  (animate, if animate then { s with g_sync_count := 0 } else s)

/-- Source: `idle`, the block `if (animate && g_led_function)`. -/
def idle_frame (render : LedFunction → Nat → color_t) (animate : Bool) (s : State) : State :=
  match animate, s.g_led_function with
  | true, some f =>
    let t := s.g_pattern_t
    let s := { s with g_pattern_t := u32 (s.g_pattern_t + 1) }
    let c := render f t
    set_led_rgb_no_delay s c.red c.green c.blue
  | _, _ => s

/-- Source: `idle`, third critical section: the snapshot `(ticks, is_dispensing)`. -/
def idle_snapshot (s : State) : Nat × Nat := (s.g_ticks, s.g_is_dispensing)

/-- Source: `idle`, fourth critical section: `g_ticks = 0`. -/
def idle_clear (s : State) : State := { s with g_ticks := 0 }

/-- Source: `idle`, the EEPROM read-modify-write of the snapshot. -/
def idle_store (s : State) (ticks_to_save : Nat) : State :=
  { s with ee_run_time_ticks := u32 (ticks_to_save + s.ee_run_time_ticks) }

/-- Source: `idle`, run section by section; the interrupt handlers of `i1` run
after the first `sei`, those of `i2` after the frame block, those of `i3`
between the snapshot and the clearing of `g_ticks`, those of `i4` after it. -/
def idle_interleaved (render : LedFunction → Nat → color_t) (s : State)
    (i1 i2 i3 i4 : List Irq) : State :=
  let r := idle_sync s
  let s := isrs r.2 i1
  let s := idle_frame render r.1 s
  let s := isrs s i2
  let snap := idle_snapshot s
  let s := isrs s i3
  if snap.2 = 0 then
    if snap.1 > TICKS_SAVE_THRESHOLD then
      let s := idle_clear s
      let s := isrs s i4
      idle_store s snap.1
    else isrs s i4
  else isrs s i4

/-! ## Everything that runs between two reinitialisations -/

/-- One piece of the program that runs after `main_loop_init` and before the
next `main_loop_init`, together with the interrupt handlers that run inside it:
address negotiation, a reset poll, a dispatched command, an `idle` call, or an
interrupt handler on its own. -/
inductive Activity
  | negotiate (events : List BusEvent)
  | poll
  | dispatch (p : packet_t) (hw : HwInput) (irqs : List Irq)
  | tick (i1 i2 i3 i4 : List Irq)
  | irq (i : Irq)

/-- The state after one `Activity`. -/
def perform (render : LedFunction → Nat → color_t) (s : State) : Activity → State
  | Activity.negotiate events => (address_exchange s events).2
  | Activity.poll => (check_reset s).2
  | Activity.dispatch p hw irqs => main_dispatch_interleaved s p hw irqs
  | Activity.tick i1 i2 i3 i4 => idle_interleaved render s i1 i2 i3 i4
  | Activity.irq i => isr s i

/-- The state after a sequence of activities. -/
def perform_all (render : LedFunction → Nat → color_t) (s : State)
    (l : List Activity) : State :=
  l.foldl (perform render) s

/-! ## Vocabulary of the properties -/

/-- Whether an interrupt is one of the two sensor-edge handlers. -/
def is_edge : Irq → Bool
  | Irq.PCINT0 _ => true
  | Irq.PCINT2 _ => true
  | _ => false

/-- The number of hall lines whose sampled level differs from the stored level
when the handler is entered in state `s`. -/
def hall_changes (s : State) : Irq → Nat
  | Irq.PCINT0 PINB =>
    (if PINB &&& (1 <<< PINB0) ≠ s.g_hall2 then 1 else 0)
      + (if PINB &&& (1 <<< PINB1) ≠ s.g_hall3 then 1 else 0)
  | Irq.PCINT2 PIND =>
    (if PIND &&& (1 <<< PIND6) ≠ s.g_hall0 then 1 else 0)
      + (if PIND &&& (1 <<< PIND7) ≠ s.g_hall1 then 1 else 0)
  | _ => 0

/-- Every element is a sensor-edge handler invocation that registers exactly
one level change in the state in which it runs. -/
def single_edges (s : State) : List Irq → Prop
  | [] => True
  | e :: rest => is_edge e = true ∧ hall_changes s e = 1 ∧ single_edges (isr s e) rest

/-- For one line, selected by `mask`: how often a sampled level differs from
the stored level over a sequence of port samples, a difference replacing the
stored level by the sampled one. -/
def level_changes (mask : Nat) : Nat → List Nat → Nat
  | _, [] => 0
  | stored, port :: rest =>
    if port &&& mask ≠ stored then 1 + level_changes mask (port &&& mask) rest
    else level_changes mask stored rest

/-- The port-B samples of the `PCINT0` invocations, in order. -/
def pinb_samples : List Irq → List Nat
  | [] => []
  | Irq.PCINT0 PINB :: rest => PINB :: pinb_samples rest
  | _ :: rest => pinb_samples rest

/-- The port-D samples of the `PCINT2` invocations, in order. -/
def pind_samples : List Irq → List Nat
  | [] => []
  | Irq.PCINT2 PIND :: rest => PIND :: pind_samples rest
  | _ :: rest => pind_samples rest

/-- The number `N` of level changes over the four hall lines, counted line by
line from the stored levels of `s`. -/
def total_level_changes (s : State) (es : List Irq) : Nat :=
  level_changes (1 <<< PIND6) s.g_hall0 (pind_samples es)
    + level_changes (1 <<< PIND7) s.g_hall1 (pind_samples es)
    + level_changes (1 <<< PINB0) s.g_hall2 (pinb_samples es)
    + level_changes (1 <<< PINB1) s.g_hall3 (pinb_samples es)

/-- The hall-line part of `PCINT0_vect`, up to the completion check. -/
def pcint0_halls (s : State) (PINB : Nat) : State :=
  let state := PINB &&& (1 <<< PINB0)
  let s := if state ≠ s.g_hall2 then
    { s with g_hall2 := state, g_ticks := u32 (s.g_ticks + 1) } else s
  let state := PINB &&& (1 <<< PINB1)
  if state ≠ s.g_hall3 then
    { s with g_hall3 := state, g_ticks := u32 (s.g_ticks + 1) } else s

/-- The sync-line part of `PCINT0_vect`, after the completion check. -/
def pcint0_sync (s : State) (PINB : Nat) : State :=
  let state := PINB &&& (1 <<< PINB2)
  if state ≠ s.g_sync then
    { s with g_sync_count := u32 (s.g_sync_count + 1), g_sync := state }
  else s

/-- The hall-line part of `PCINT2_vect`, up to the completion check. -/
def pcint2_halls (s : State) (PIND : Nat) : State :=
  let state := PIND &&& (1 <<< PIND6)
  let s := if state ≠ s.g_hall0 then
    { s with g_hall0 := state, g_ticks := u32 (s.g_ticks + 1) } else s
  let state := PIND &&& (1 <<< PIND7)
  if state ≠ s.g_hall1 then
    { s with g_hall1 := state, g_ticks := u32 (s.g_ticks + 1) } else s

/-- The ADC handler invocations delivering the given register pairs. -/
def adc_irqs (xs : List (Nat × Nat)) : List Irq :=
  xs.map (fun x => Irq.ADC x.1 x.2)

/-- How many of the samples are at or above the threshold `th`. -/
def over_count (th : Nat) (xs : List (Nat × Nat)) : Nat :=
  xs.countP (fun x => decide (th ≤ adc_data x.1 x.2))

/-- The serial bytes delivered by the polls, in order. -/
def rx_bytes : List BusEvent → List Nat
  | [] => []
  | BusEvent.rx ch :: rest => ch :: rx_bytes rest
  | _ :: rest => rx_bytes rest

/-- No event is an invocation of the reset-line handler. -/
def no_reset_edge : List BusEvent → Prop
  | [] => True
  | BusEvent.irq (Irq.INT0 _) :: _ => False
  | _ :: rest => no_reset_edge rest

/-- The number of poll bytes (63, the character `?`) before the first
terminator byte 0xFF. -/
def polls_before_terminator (bytes : List Nat) : Nat :=
  (bytes.takeWhile (fun b => decide (b ≠ 0xFF))).count 63

/-- The interrupt-handler invocations among the events, in order. -/
def irq_events : List BusEvent → List Irq
  | [] => []
  | BusEvent.irq i :: rest => i :: irq_events rest
  | _ :: rest => irq_events rest

/-- No reset is latched when the receive loop looks: at every poll of the
stream that finds no byte, the latch reads clear, the latch being followed from
`s` through the handlers that ran before that poll. -/
def polls_clear (s : State) : List BusEvent → Bool
  | [] => true
  | BusEvent.irq i :: rest => polls_clear (isr s i) rest
  | BusEvent.norx :: rest => decide ((check_reset s).1 = 0) && polls_clear s rest
  | BusEvent.rx _ :: rest => polls_clear s rest

/-- The state `s` with the LED colour and the serial log replaced. -/
def with_output (s : State) (l : color_t) (t : List SerialOut) : State :=
  { s with led := l, tx := t }

/-- The fault flag, the motor compare register and the two session variables. -/
def session_fields (s : State) : Nat × Nat × Nat × Nat :=
  (s.g_current_sense_detected, s.OCR0B, s.g_is_dispensing, s.g_dispense_target_ticks)

/-- The fields a latched fault pins down: fault flag set, motor compare
register at the stop value, no session, no target. -/
def fault_latched (s : State) : Prop :=
  s.g_current_sense_detected = 1 ∧ s.OCR0B = 255 ∧
    s.g_is_dispensing = 0 ∧ s.g_dispense_target_ticks = 0

/-- The main-loop tick runs after every sync-line handler invocation: for each
port-B sample, `PCINT0_vect` and then `idle`. -/
def tick_after_each (render : LedFunction → Nat → color_t) (s : State)
    (ps : List Nat) : State :=
  ps.foldl (fun s PINB => idle render (PCINT0_vect s PINB)) s

/-- Every port-B sample shows a sync level different from the stored one when
its handler runs, so each is one observed sync-line transition. -/
def sync_transitions (render : LedFunction → Nat → color_t) (s : State) : List Nat → Prop
  | [] => True
  | PINB :: rest =>
    PINB &&& (1 <<< PINB2) ≠ s.g_sync ∧
      sync_transitions render (idle render (PCINT0_vect s PINB)) rest

/-! ## States used as concrete inputs -/

/-- An active session of 100 ticks started from the initial state of node 5. -/
def active_state : State := dispense_ticks (State.init 5 0) 100

/-- The state right after the third over-threshold sample of `active_state`
has tripped the fault. -/
def tripped_state : State :=
  ADC_vect (isrs active_state (adc_irqs [(255, 1), (255, 1)])) 255 1

/-- The session of `active_state` after two over-threshold samples: one more
trips the fault. -/
def near_trip_state : State := isrs active_state (adc_irqs [(255, 1), (255, 1)])

/-- The bus sends set-motor-speed 255 to `near_trip_state`; the third
over-threshold sample is handled after the dispatcher has copied the fault flag
and before the switch runs. -/
def raced_state : State :=
  main_dispatch_interleaved near_trip_state
    ⟨5, PacketType.PACKET_SET_MOTOR_SPEED, 255, 0, 0⟩ ⟨fun _ => (0, 0), []⟩ [Irq.ADC 255 1]

/-- The tripped node after twenty sync-line transitions and one `idle` call
whose pattern function returns red: the fault animation has shown one frame. -/
def fault_showing_state : State :=
  idle (fun _ _ => ⟨255, 0, 0⟩)
    (isrs tripped_state
      ((List.range 20).map (fun i => Irq.PCINT0 (if i % 2 = 0 then 4 else 0))))

/-- A reset pulse one time unit long: reset-line handler with the pin high,
one time-base overflow, reset-line handler with the pin low. -/
def reset_pulse : List Irq := [Irq.INT0 4, Irq.TIMER1_OVF, Irq.INT0 0]

/-! ## Theorems -/

theorem PCINT2_vect_eq (s : State) (PIND : Nat) :
    PCINT2_vect s PIND = check_dispense_complete_isr (pcint2_halls s PIND) := rfl

theorem PCINT0_vect_eq (s : State) (PINB : Nat) :
    PCINT0_vect s PINB = pcint0_sync (check_dispense_complete_isr (pcint0_halls s PINB)) PINB := rfl


theorem u32_lt (n : Nat) : u32 n < 2 ^ 32 := Nat.mod_lt _ (by norm_num)

theorem cdc_ticks (s : State) : (check_dispense_complete_isr s).g_ticks = s.g_ticks := by
  unfold check_dispense_complete_isr set_motor_speed adc_shutdown
  split_ifs <;> rfl

theorem cdc_halls (s : State) :
    (check_dispense_complete_isr s).g_hall0 = s.g_hall0 ∧
    (check_dispense_complete_isr s).g_hall1 = s.g_hall1 ∧
    (check_dispense_complete_isr s).g_hall2 = s.g_hall2 ∧
    (check_dispense_complete_isr s).g_hall3 = s.g_hall3 := by
  unfold check_dispense_complete_isr set_motor_speed adc_shutdown
  split_ifs <;> simp

theorem cdc_session (s : State) :
    if s.g_dispense_target_ticks > 0 ∧ s.g_ticks ≥ s.g_dispense_target_ticks then
      (check_dispense_complete_isr s).g_dispense_target_ticks = 0 ∧
      (check_dispense_complete_isr s).g_is_dispensing = 0 ∧
      (check_dispense_complete_isr s).OCR0B = 255
    else check_dispense_complete_isr s = s := by
  unfold check_dispense_complete_isr set_motor_speed adc_shutdown
  split_ifs <;> simp [u8]

theorem isr_edge_ticks (s : State) (e : Irq) (he : is_edge e = true) (h : s.g_ticks < 2 ^ 32) :
    (isr s e).g_ticks = u32 (s.g_ticks + hall_changes s e) := by
  cases e <;> simp [is_edge] at he
  · simp only [isr, PCINT0_vect, hall_changes]
    split_ifs <;> simp only [cdc_ticks, u32] <;> omega
  · simp only [isr, PCINT2_vect, hall_changes]
    split_ifs <;> simp only [cdc_ticks, u32] <;> omega

theorem pcint0_halls_session (s : State) (PINB : Nat) :
    (pcint0_halls s PINB).g_dispense_target_ticks = s.g_dispense_target_ticks ∧
    (pcint0_halls s PINB).g_is_dispensing = s.g_is_dispensing ∧
    (pcint0_halls s PINB).OCR0B = s.OCR0B := by
  unfold pcint0_halls
  simp only []
  split_ifs <;> simp

theorem pcint2_halls_session (s : State) (PIND : Nat) :
    (pcint2_halls s PIND).g_dispense_target_ticks = s.g_dispense_target_ticks ∧
    (pcint2_halls s PIND).g_is_dispensing = s.g_is_dispensing ∧
    (pcint2_halls s PIND).OCR0B = s.OCR0B := by
  unfold pcint2_halls
  simp only []
  split_ifs <;> simp

theorem pcint0_sync_session (s : State) (PINB : Nat) :
    (pcint0_sync s PINB).g_dispense_target_ticks = s.g_dispense_target_ticks ∧
    (pcint0_sync s PINB).g_is_dispensing = s.g_is_dispensing ∧
    (pcint0_sync s PINB).OCR0B = s.OCR0B ∧ (pcint0_sync s PINB).g_ticks = s.g_ticks := by
  unfold pcint0_sync
  simp only []
  split_ifs <;> simp

theorem isr_edge_session (s : State) (e : Irq) (he : is_edge e = true) :
    if s.g_dispense_target_ticks > 0 ∧ (isr s e).g_ticks ≥ s.g_dispense_target_ticks then
      (isr s e).g_dispense_target_ticks = 0 ∧ (isr s e).g_is_dispensing = 0 ∧ (isr s e).OCR0B = 255
    else
      (isr s e).g_dispense_target_ticks = s.g_dispense_target_ticks ∧
      (isr s e).g_is_dispensing = s.g_is_dispensing ∧ (isr s e).OCR0B = s.OCR0B := by
  cases e <;> simp [is_edge] at he
  · rename_i PINB
    simp only [isr, PCINT0_vect_eq]
    obtain ⟨a1, a2, a3, a4⟩ := pcint0_sync_session (check_dispense_complete_isr (pcint0_halls s PINB)) PINB
    obtain ⟨b1, b2, b3⟩ := pcint0_halls_session s PINB
    have hc := cdc_session (pcint0_halls s PINB)
    rw [a1, a2, a3, a4, cdc_ticks]
    rw [b1] at hc
    split_ifs at hc ⊢
    · exact hc
    · rw [hc]; exact ⟨b1, b2, b3⟩
  · rename_i PIND
    simp only [isr, PCINT2_vect_eq]
    obtain ⟨b1, b2, b3⟩ := pcint2_halls_session s PIND
    have hc := cdc_session (pcint2_halls s PIND)
    rw [cdc_ticks]
    rw [b1] at hc
    split_ifs at hc ⊢
    · exact hc
    · rw [hc]; exact ⟨b1, b2, b3⟩

/-- While the count stays below the target the session stays active. -/
theorem single_edges_active (es : List Irq) : ∀ (s : State), single_edges s es →
    s.g_ticks + es.length < s.g_dispense_target_ticks → s.g_dispense_target_ticks ≤ 2 ^ 32 →
    (isrs s es).g_ticks = s.g_ticks + es.length ∧
    (isrs s es).g_dispense_target_ticks = s.g_dispense_target_ticks ∧
    (isrs s es).g_is_dispensing = s.g_is_dispensing ∧ (isrs s es).OCR0B = s.OCR0B := by
  induction es with
  | nil => intro s _ _ _; simp [isrs]
  | cons e es ih =>
    intro s hs hlt hle
    obtain ⟨he, h1, hrest⟩ := hs
    simp only [List.length_cons] at hlt
    have ht := isr_edge_ticks s e he (by omega)
    rw [h1, u32, Nat.mod_eq_of_lt (by omega)] at ht
    have hsess := isr_edge_session s e he
    rw [if_neg (by rw [ht]; omega)] at hsess
    obtain ⟨c1, c2, c3⟩ := hsess
    have := ih (isr s e) hrest (by rw [ht, c1]; omega) (by rw [c1]; exact hle)
    simp only [isrs, List.foldl_cons, List.length_cons] at this ⊢
    rw [this.1, this.2.1, this.2.2.1, this.2.2.2, ht, c1, c2, c3]
    exact ⟨by omega, rfl, rfl, rfl⟩

theorem isrs_append (s : State) (a b : List Irq) : isrs s (a ++ b) = isrs (isrs s a) b := by
  simp [isrs, List.foldl_append]

theorem single_edges_append (a : List Irq) : ∀ (s : State) (b : List Irq),
    single_edges s (a ++ b) → single_edges s a ∧ single_edges (isrs s a) b := by
  induction a with
  | nil => intro s b h; exact ⟨trivial, h⟩
  | cons e a ih =>
    intro s b h
    obtain ⟨he, h1, hrest⟩ := h
    have := ih (isr s e) b hrest
    exact ⟨⟨he, h1, this.1⟩, this.2⟩

theorem dispense_ticks_fields (s : State) (T : Nat) (hidle : s.g_is_dispensing = 0) :
    (dispense_ticks s T).g_ticks = s.g_ticks ∧
    (dispense_ticks s T).g_dispense_target_ticks = u32 (s.g_ticks + T) ∧
    (dispense_ticks s T).g_is_dispensing = 1 ∧ (dispense_ticks s T).OCR0B = 0 := by
  simp [dispense_ticks, hidle, set_motor_speed, u8]

/-- C1: after `dispense_ticks T` from an idle state with `g_ticks + T < 2^32`,
edge-handler invocations that each register one level change keep the session
active (`g_is_dispensing = 1`, motor speed 255) as long as fewer than `T` of
them have run, and the handler invocation for the `T`-th edge itself leaves
`g_is_dispensing = 0`, `g_dispense_target_ticks = 0` and motor speed 0. -/
theorem dispense_ticks_completes_on_target_edge (s : State) (T : Nat) (es : List Irq)
    (hidle : s.g_is_dispensing = 0) (hT : 1 ≤ T) (hc : s.g_ticks + T < 2 ^ 32)
    (hes : single_edges (dispense_ticks s T) es) :
    (es.length < T →
      (isrs (dispense_ticks s T) es).g_is_dispensing = 1 ∧
      motor_speed (isrs (dispense_ticks s T) es) = 255) ∧
    (es.length = T →
      (isrs (dispense_ticks s T) es).g_is_dispensing = 0 ∧
      (isrs (dispense_ticks s T) es).g_dispense_target_ticks = 0 ∧
      motor_speed (isrs (dispense_ticks s T) es) = 0) := by
  obtain ⟨d1, d2, d3, d4⟩ := dispense_ticks_fields s T hidle
  rw [u32, Nat.mod_eq_of_lt hc] at d2
  constructor
  · intro hlen
    obtain ⟨_, _, a3, a4⟩ := single_edges_active es (dispense_ticks s T) hes
      (by rw [d1, d2]; omega) (by rw [d2]; omega)
    rw [motor_speed, a3, a4, d3, d4]
    exact ⟨rfl, rfl⟩
  · intro hlen
    obtain ⟨pre, e, rfl⟩ : ∃ pre e, es = pre ++ [e] := by
      have hne : es ≠ [] := by
        intro h; rw [h] at hlen; simp at hlen; omega
      exact ⟨es.dropLast, es.getLast hne, (List.dropLast_append_getLast hne).symm⟩
    simp only [List.length_append, List.length_singleton] at hlen
    obtain ⟨hpre, hlast⟩ := single_edges_append pre (dispense_ticks s T) [e] hes
    obtain ⟨a1, a2, a3, a4⟩ := single_edges_active pre (dispense_ticks s T) hpre
      (by rw [d1, d2]; omega) (by rw [d2]; omega)
    obtain ⟨he, h1, _⟩ := hlast
    have ht := isr_edge_ticks (isrs (dispense_ticks s T) pre) e he (by rw [a1, d1]; omega)
    rw [h1, a1, d1, u32, Nat.mod_eq_of_lt (by omega)] at ht
    have hsess := isr_edge_session (isrs (dispense_ticks s T) pre) e he
    rw [if_pos (by rw [a2, d2, ht]; constructor <;> omega)] at hsess
    rw [isrs_append]
    simp only [isrs, List.foldl_cons, List.foldl_nil] at hsess ⊢
    rw [motor_speed, hsess.1, hsess.2.1, hsess.2.2]
    exact ⟨rfl, rfl, rfl⟩

/-- Witness for C1: target 2 from the initial state, one edge on hall 2 and
one on hall 0. -/
theorem dispense_ticks_completes_on_target_edge_witness :
    ((isrs (dispense_ticks (State.init 5 0) 2) [Irq.PCINT0 1]).g_is_dispensing = 1 ∧
      motor_speed (isrs (dispense_ticks (State.init 5 0) 2) [Irq.PCINT0 1]) = 255) ∧
    ((isrs (dispense_ticks (State.init 5 0) 2) [Irq.PCINT0 1, Irq.PCINT2 64]).g_is_dispensing = 0 ∧
      (isrs (dispense_ticks (State.init 5 0) 2)
        [Irq.PCINT0 1, Irq.PCINT2 64]).g_dispense_target_ticks = 0 ∧
      motor_speed (isrs (dispense_ticks (State.init 5 0) 2) [Irq.PCINT0 1, Irq.PCINT2 64]) = 0) :=
  ⟨(dispense_ticks_completes_on_target_edge (State.init 5 0) 2 [Irq.PCINT0 1] rfl (by decide)
      (by decide) ⟨rfl, by decide, trivial⟩).1 (by decide),
   (dispense_ticks_completes_on_target_edge (State.init 5 0) 2 [Irq.PCINT0 1, Irq.PCINT2 64] rfl
      (by decide) (by decide) ⟨rfl, by decide, rfl, by decide, trivial⟩).2 rfl⟩

/-! ### Flow counting (C7) -/

theorem isr_edge_halls (s : State) (e : Irq) :
    match e with
    | Irq.PCINT0 PINB =>
      (isr s e).g_hall0 = s.g_hall0 ∧ (isr s e).g_hall1 = s.g_hall1 ∧
      (isr s e).g_hall2 = PINB &&& (1 <<< PINB0) ∧ (isr s e).g_hall3 = PINB &&& (1 <<< PINB1)
    | Irq.PCINT2 PIND =>
      (isr s e).g_hall0 = PIND &&& (1 <<< PIND6) ∧ (isr s e).g_hall1 = PIND &&& (1 <<< PIND7) ∧
      (isr s e).g_hall2 = s.g_hall2 ∧ (isr s e).g_hall3 = s.g_hall3
    | _ => True := by
  cases e <;> simp only []
  · simp only [isr, PCINT0_vect]
    split_ifs <;> simp_all [cdc_halls]
  · simp only [isr, PCINT2_vect]
    split_ifs <;> simp_all [cdc_halls]

theorem level_changes_cons (mask stored port : Nat) (rest : List Nat) :
    level_changes mask stored (port :: rest) =
      (if port &&& mask ≠ stored then 1 else 0) + level_changes mask (port &&& mask) rest := by
  by_cases h : port &&& mask = stored
  · simp [level_changes, h]
  · simp [level_changes, h]

theorem total_level_changes_cons (s : State) (e : Irq) (es : List Irq) (he : is_edge e = true) :
    total_level_changes s (e :: es) = hall_changes s e + total_level_changes (isr s e) es := by
  have hh := isr_edge_halls s e
  cases e <;> simp [is_edge] at he
  · simp only [] at hh
    obtain ⟨h0, h1, h2, h3⟩ := hh
    simp only [total_level_changes, pinb_samples, pind_samples, level_changes_cons, hall_changes,
      h0, h1, h2, h3]
    omega
  · simp only [] at hh
    obtain ⟨h0, h1, h2, h3⟩ := hh
    simp only [total_level_changes, pinb_samples, pind_samples, level_changes_cons, hall_changes,
      h0, h1, h2, h3]
    omega

theorem isrs_edges_ticks (es : List Irq) : ∀ (s : State), (∀ e ∈ es, is_edge e = true) →
    s.g_ticks < 2 ^ 32 → (isrs s es).g_ticks = (s.g_ticks + total_level_changes s es) % 2 ^ 32 := by
  induction es with
  | nil =>
    intro s _ h
    simp only [isrs, total_level_changes, pinb_samples, pind_samples, level_changes, List.foldl_nil]
    omega
  | cons e es ih =>
    intro s hall h
    have he : is_edge e = true := hall e (List.mem_cons_self _ _)
    have ht := isr_edge_ticks s e he h
    have hlt : (isr s e).g_ticks < 2 ^ 32 := by rw [ht]; exact u32_lt _
    have := ih (isr s e) (fun x hx => hall x (List.mem_cons_of_mem _ hx)) hlt
    simp only [isrs, List.foldl_cons] at this ⊢
    rw [this, ht, total_level_changes_cons s e es he, u32]
    omega

/-- C7: over any sequence of invocations of the two sensor-edge handlers, from
any stored levels and any 32-bit tick count `c`, `g_ticks` ends at
`(c + N) mod 2^32`, where `N` sums, line by line, the number of times a sampled
level differed from the stored one; and a `PCINT0` invocation whose two hall
bits equal the stored levels (only the sync line may have changed) leaves
`g_ticks` as it was. -/
theorem flow_count_equals_level_changes (s : State) (es : List Irq)
    (hedge : ∀ e ∈ es, is_edge e = true) (hc : s.g_ticks < 2 ^ 32) :
    (isrs s es).g_ticks = (s.g_ticks + total_level_changes s es) % 2 ^ 32 ∧
    (∀ PINB, PINB &&& (1 <<< PINB0) = s.g_hall2 → PINB &&& (1 <<< PINB1) = s.g_hall3 →
      (PCINT0_vect s PINB).g_ticks = s.g_ticks) := by
  refine ⟨isrs_edges_ticks es s hedge hc, ?_⟩
  intro PINB h2 h3
  have := isr_edge_ticks s (Irq.PCINT0 PINB) rfl hc
  simp only [isr, hall_changes, h2, h3, ne_eq, not_true_eq_false, if_false, Nat.add_zero] at this
  rw [this, u32, Nat.mod_eq_of_lt hc]

/-- Witness for C7: three handler invocations from the initial state, the
middle one changing both of its lines and the sync line. -/
theorem flow_count_equals_level_changes_witness :
    (isrs (State.init 5 0) [Irq.PCINT2 64, Irq.PCINT0 7, Irq.PCINT2 0]).g_ticks = 4 ∧
    (PCINT0_vect (State.init 5 0) 4).g_ticks = 0 :=
  have h := flow_count_equals_level_changes (State.init 5 0)
    [Irq.PCINT2 64, Irq.PCINT0 7, Irq.PCINT2 0] (by decide) (by decide)
  ⟨h.1.trans (by decide), h.2 4 (by decide) (by decide)⟩

/-! ### Current-sense monitor (C2) -/

/-- The count the ADC handler holds after a sample. -/
theorem ADC_vect_count (s : State) (ADCL ADCH : Nat) :
    (ADC_vect s ADCL ADCH).g_current_sense_num_cycles =
      (if adc_data ADCL ADCH ≥ s.g_current_sense_threshold
        then u8 (s.g_current_sense_num_cycles + 1) else s.g_current_sense_num_cycles) ∧
    (ADC_vect s ADCL ADCH).g_current_sense_threshold = s.g_current_sense_threshold := by
  unfold ADC_vect set_motor_speed set_led_pattern set_led_rgb
  simp only []
  split_ifs <;> simp_all

/-- What the ADC handler does to the session, the motor and the LED pattern,
by whether the count after the sample has reached the limit. -/
theorem ADC_vect_session (s : State) (ADCL ADCH : Nat) :
    if (ADC_vect s ADCL ADCH).g_current_sense_num_cycles ≥ MAX_CURRENT_SENSE_CYCLES then
      (ADC_vect s ADCL ADCH).OCR0B = 255 ∧
      (ADC_vect s ADCL ADCH).g_is_dispensing = 0 ∧
      (ADC_vect s ADCL ADCH).g_dispense_target_ticks = 0 ∧
      (ADC_vect s ADCL ADCH).g_current_sense_detected = 1 ∧
      (ADC_vect s ADCL ADCH).g_led_function = some LedFunction.led_pattern_current_sense
    else
      (ADC_vect s ADCL ADCH).OCR0B = s.OCR0B ∧
      (ADC_vect s ADCL ADCH).g_is_dispensing = s.g_is_dispensing ∧
      (ADC_vect s ADCL ADCH).g_dispense_target_ticks = s.g_dispense_target_ticks ∧
      (ADC_vect s ADCL ADCH).g_current_sense_detected = s.g_current_sense_detected ∧
      (ADC_vect s ADCL ADCH).g_led_function = s.g_led_function := by
  unfold ADC_vect set_motor_speed set_led_pattern set_led_rgb
  simp only []
  split_ifs <;> simp_all [u8]

theorem over_count_cons (th : Nat) (x : Nat × Nat) (xs : List (Nat × Nat)) :
    over_count th (x :: xs) = over_count th xs + (if th ≤ adc_data x.1 x.2 then 1 else 0) := by
  simp [over_count, List.countP_cons]

theorem isrs_adc_cons (s : State) (x : Nat × Nat) (xs : List (Nat × Nat)) :
    isrs s (adc_irqs (x :: xs)) = isrs (ADC_vect s x.1 x.2) (adc_irqs xs) := by
  simp [isrs, adc_irqs, isr]

/-- Samples that bring the count to at most two change nothing but the count. -/
theorem adc_samples_below_limit (xs : List (Nat × Nat)) : ∀ (s : State),
    s.g_current_sense_num_cycles + over_count s.g_current_sense_threshold xs ≤ 2 →
    (isrs s (adc_irqs xs)).g_current_sense_num_cycles =
      s.g_current_sense_num_cycles + over_count s.g_current_sense_threshold xs ∧
    (isrs s (adc_irqs xs)).g_current_sense_threshold = s.g_current_sense_threshold ∧
    (isrs s (adc_irqs xs)).OCR0B = s.OCR0B ∧
    (isrs s (adc_irqs xs)).g_is_dispensing = s.g_is_dispensing ∧
    (isrs s (adc_irqs xs)).g_dispense_target_ticks = s.g_dispense_target_ticks ∧
    (isrs s (adc_irqs xs)).g_current_sense_detected = s.g_current_sense_detected ∧
    (isrs s (adc_irqs xs)).g_led_function = s.g_led_function := by
  induction xs with
  | nil => intro s _; simp [isrs, adc_irqs, over_count]
  | cons x xs ih =>
    intro s h
    rw [over_count_cons] at h
    obtain ⟨hc, hth⟩ := ADC_vect_count s x.1 x.2
    have hc' : (ADC_vect s x.1 x.2).g_current_sense_num_cycles =
        s.g_current_sense_num_cycles +
          (if s.g_current_sense_threshold ≤ adc_data x.1 x.2 then 1 else 0) := by
      rw [hc]
      by_cases hx : s.g_current_sense_threshold ≤ adc_data x.1 x.2
      · simp only [ge_iff_le, hx, if_true] at h ⊢
        rw [u8, Nat.mod_eq_of_lt (by omega)]
      · simp only [ge_iff_le, hx, if_false, Nat.add_zero]
    have hs := ADC_vect_session s x.1 x.2
    rw [if_neg (by rw [hc', MAX_CURRENT_SENSE_CYCLES]; omega)] at hs
    obtain ⟨s1, s2, s3, s4, s5⟩ := hs
    obtain ⟨i1, i2, i3, i4, i5, i6, i7⟩ := ih (ADC_vect s x.1 x.2) (by rw [hc', hth]; omega)
    rw [isrs_adc_cons, over_count_cons, i1, i2, i3, i4, i5, i6, i7, hc', hth, s1, s2, s3, s4, s5]
    exact ⟨by omega, rfl, rfl, rfl, rfl, rfl, rfl⟩

theorem adc_irqs_append (xs ys : List (Nat × Nat)) :
    adc_irqs (xs ++ ys) = adc_irqs xs ++ adc_irqs ys := by
  simp [adc_irqs]

/-- C2: from an active session with over-threshold count 0, any run of ADC
samples of which at most two are at or above the threshold leaves the motor
speed, `g_is_dispensing`, `g_dispense_target_ticks`, `g_current_sense_detected`
and the LED pattern as they were (the session is still active); and when
exactly two such samples have been seen, the next sample at or above the
threshold trips: motor speed 0, `g_is_dispensing = 0`,
`g_dispense_target_ticks = 0`, `g_current_sense_detected = 1`, LED pattern the
current-sense pattern. -/
theorem current_sense_trips_on_third_sample (s : State) (xs : List (Nat × Nat))
    (ADCL ADCH : Nat) (hcount : s.g_current_sense_num_cycles = 0)
    (hactive : s.g_is_dispensing = 1) :
    (over_count s.g_current_sense_threshold xs ≤ 2 →
      motor_speed (isrs s (adc_irqs xs)) = motor_speed s ∧
      (isrs s (adc_irqs xs)).g_is_dispensing = 1 ∧
      (isrs s (adc_irqs xs)).g_dispense_target_ticks = s.g_dispense_target_ticks ∧
      (isrs s (adc_irqs xs)).g_current_sense_detected = s.g_current_sense_detected ∧
      (isrs s (adc_irqs xs)).g_led_function = s.g_led_function) ∧
    (over_count s.g_current_sense_threshold xs = 2 →
      s.g_current_sense_threshold ≤ adc_data ADCL ADCH →
      motor_speed (isrs s (adc_irqs (xs ++ [(ADCL, ADCH)]))) = 0 ∧
      (isrs s (adc_irqs (xs ++ [(ADCL, ADCH)]))).g_is_dispensing = 0 ∧
      (isrs s (adc_irqs (xs ++ [(ADCL, ADCH)]))).g_dispense_target_ticks = 0 ∧
      (isrs s (adc_irqs (xs ++ [(ADCL, ADCH)]))).g_current_sense_detected = 1 ∧
      (isrs s (adc_irqs (xs ++ [(ADCL, ADCH)]))).g_led_function =
        some LedFunction.led_pattern_current_sense) := by
  constructor
  · intro hk
    obtain ⟨_, _, i3, i4, i5, i6, i7⟩ := adc_samples_below_limit xs s (by rw [hcount]; omega)
    rw [motor_speed, motor_speed, i3, i4, i5, i6, i7]
    exact ⟨rfl, hactive, rfl, rfl, rfl⟩
  · intro hk hover
    obtain ⟨i1, i2, _⟩ := adc_samples_below_limit xs s (by rw [hcount]; omega)
    rw [hcount, hk] at i1
    rw [adc_irqs_append, isrs_append]
    have hstep : isrs (isrs s (adc_irqs xs)) (adc_irqs [(ADCL, ADCH)]) =
        ADC_vect (isrs s (adc_irqs xs)) ADCL ADCH := by
      simp [isrs, adc_irqs, isr]
    rw [hstep]
    obtain ⟨hc, _⟩ := ADC_vect_count (isrs s (adc_irqs xs)) ADCL ADCH
    rw [i2, if_pos hover, i1] at hc
    have hs := ADC_vect_session (isrs s (adc_irqs xs)) ADCL ADCH
    rw [if_pos (by rw [hc]; decide)] at hs
    obtain ⟨s1, s2, s3, s4, s5⟩ := hs
    rw [motor_speed, s1, s2, s3, s4, s5]
    exact ⟨rfl, rfl, rfl, rfl, rfl⟩

/-- Witness for C2: threshold 465, samples 511, 0, 767 (two over) and then 511. -/
theorem current_sense_trips_on_third_sample_witness :
    (isrs (dispense_ticks (State.init 5 0) 100)
        (adc_irqs [(255, 1), (0, 0), (255, 2)])).g_is_dispensing = 1 ∧
    (isrs (dispense_ticks (State.init 5 0) 100)
        (adc_irqs ([(255, 1), (0, 0), (255, 2)] ++ [(255, 1)]))).g_current_sense_detected = 1 ∧
    motor_speed (isrs (dispense_ticks (State.init 5 0) 100)
        (adc_irqs ([(255, 1), (0, 0), (255, 2)] ++ [(255, 1)]))) = 0 :=
  have h := current_sense_trips_on_third_sample (dispense_ticks (State.init 5 0) 100)
    [(255, 1), (0, 0), (255, 2)] 255 1 rfl rfl
  ⟨(h.1 (by decide)).2.1, (h.2 (by decide) (by decide)).2.2.2.1, (h.2 (by decide) (by decide)).1⟩

/-! ### Latched fault (C3) -/

theorem fault_latched_iff (s : State) : fault_latched s ↔ session_fields s = (1, 255, 0, 0) := by
  simp [fault_latched, session_fields]

theorem update_liquid_level_fold_session (samples : Nat → Nat × Nat) (l : List Nat) :
    ∀ (acc : Nat × State),
      session_fields (l.foldl
        (fun (acc : Nat × State) i =>
          let x := adc_read acc.2 (samples i).1 (samples i).2
          (u16 (acc.1 + x.1), x.2)) acc).2 = session_fields acc.2 := by
  induction l with
  | nil => intro acc; rfl
  | cons i l ih =>
    intro acc
    rw [List.foldl_cons, ih]
    rfl

theorem update_liquid_level_session (s : State) (samples : Nat → Nat × Nat) :
    session_fields (update_liquid_level s samples) = session_fields s := by
  have h := update_liquid_level_fold_session samples (List.range NUM_ADC_SAMPLES)
    (0, adc_liquid_level_setup s)
  unfold update_liquid_level
  simp only [session_fields, adc_shutdown] at h ⊢
  rw [h]
  rfl

theorem comm_test_fold_session (rx : List Nat) : ∀ (s : State),
    session_fields (rx.foldl (fun s ch => serial_tx s ch) s) = session_fields s := by
  induction rx with
  | nil => intro s; rfl
  | cons ch rx ih => intro s; rw [List.foldl_cons, ih]; rfl

theorem comm_test_session (s : State) (rx : List Nat) :
    session_fields (comm_test s rx) = session_fields s := by
  unfold comm_test
  simp only []
  split_ifs
  · rfl
  · rw [comm_test_fold_session]; rfl

/-- With the fault flag set no command changes the fault flag, the motor
register or the session. -/
theorem main_dispatch_session_of_fault (s : State) (p : packet_t) (hw : HwInput)
    (hcs : s.g_current_sense_detected ≠ 0) :
    session_fields (main_dispatch s p hw) = session_fields s := by
  obtain ⟨dest, type, b, w, d⟩ := p
  cases type with
  | PACKET_UPDATE_LIQUID_LEVEL => exact update_liquid_level_session s hw.samples
  | PACKET_COMM_TEST => exact comm_test_session s hw.rx
  | PACKET_RESET_SAVED_TICK_COUNT =>
    simp only [main_dispatch, main_switch, reset_saved_tick_count]
    split_ifs <;> rfl
  | PACKET_SET_MOTOR_SPEED => simp only [main_dispatch, main_switch, hcs, if_false]
  | PACKET_TICK_DISPENSE => simp only [main_dispatch, main_switch, hcs, if_false]
  | PACKET_TIME_DISPENSE => simp only [main_dispatch, main_switch, hcs, if_false]
  | PACKET_LED_IDLE => simp only [main_dispatch, main_switch, hcs, if_false]
  | PACKET_LED_DISPENSE => simp only [main_dispatch, main_switch, hcs, if_false]
  | PACKET_LED_DRINK_DONE => simp only [main_dispatch, main_switch, hcs, if_false]
  | PACKET_LED_CLEAN => simp only [main_dispatch, main_switch, hcs, if_false]
  | _ => rfl

theorem idle_session (render : LedFunction → Nat → color_t) (s : State) :
    session_fields (idle render s) = session_fields s := by
  unfold idle
  simp only []
  split_ifs <;> split <;> rfl

theorem isr_fault_latched (s : State) (i : Irq) (h : fault_latched s) :
    fault_latched (isr s i) := by
  obtain ⟨h1, h2, h3, h4⟩ := h
  cases i with
  | TIMER1_OVF => exact ⟨h1, h2, h3, h4⟩
  | INT0 PIND =>
    simp only [isr, INT0_vect]
    split_ifs <;> exact ⟨h1, h2, h3, h4⟩
  | PCINT0 PINB =>
    have hs := isr_edge_session s (Irq.PCINT0 PINB) rfl
    rw [if_neg (by rw [h4]; simp)] at hs
    have hd : (isr s (Irq.PCINT0 PINB)).g_current_sense_detected = s.g_current_sense_detected := by
      simp only [isr, PCINT0_vect, check_dispense_complete_isr, h4]
      split_ifs <;> simp_all
    exact ⟨hd.trans h1, hs.2.2.trans h2, hs.2.1.trans h3, hs.1.trans h4⟩
  | PCINT2 PIND =>
    have hs := isr_edge_session s (Irq.PCINT2 PIND) rfl
    rw [if_neg (by rw [h4]; simp)] at hs
    have hd : (isr s (Irq.PCINT2 PIND)).g_current_sense_detected = s.g_current_sense_detected := by
      simp only [isr, PCINT2_vect, check_dispense_complete_isr, h4]
      split_ifs <;> simp_all
    exact ⟨hd.trans h1, hs.2.2.trans h2, hs.2.1.trans h3, hs.1.trans h4⟩
  | ADC ADCL ADCH =>
    have hs := ADC_vect_session s ADCL ADCH
    simp only [isr]
    split_ifs at hs
    · exact ⟨hs.2.2.2.1, hs.1, hs.2.1, hs.2.2.1⟩
    · exact ⟨hs.2.2.2.1.trans h1, hs.1.trans h2, hs.2.1.trans h3, hs.2.2.1.trans h4⟩

theorem step_fault_latched (render : LedFunction → Nat → color_t) (s : State) (a : Action)
    (h : fault_latched s) : fault_latched (step render s a) := by
  cases a with
  | command p hw =>
    rw [fault_latched_iff] at h ⊢
    have hcs : s.g_current_sense_detected ≠ 0 := by
      simp [session_fields] at h; omega
    simp only [step]
    rw [main_dispatch_session_of_fault s p hw hcs, h]
  | irq i => exact isr_fault_latched s i h
  | idle =>
    rw [fault_latched_iff] at h ⊢
    simp only [step]
    rw [idle_session, h]

theorem run_fault_latched (render : LedFunction → Nat → color_t) (as : List Action) :
    ∀ (s : State), fault_latched s → fault_latched (run render s as) := by
  induction as with
  | nil => intro s h; exact h
  | cons a as ih =>
    intro s h
    exact ih (step render s a) (step_fault_latched render s a h)

/-- Latched fault when every command is dispatched as one step, with no handler
between the fault-flag copy and the switch (`main_dispatch`): after an ADC
sample that trips the fault, every sequence of dispatched
commands (any type, any payload), interrupt-handler invocations and `idle`
calls, without the main loop's reinitialisation, ends with motor speed 0, no
session, no target and the fault flag still set; and set-motor-speed,
dispense-by-ticks and dispense-by-duration dispatched with
`g_current_sense_detected = 1` leave motor speed, `g_is_dispensing` and
`g_dispense_target_ticks` unchanged. -/
theorem latched_fault_keeps_motor_off (render : LedFunction → Nat → color_t) (s : State)
    (ADCL ADCH : Nat) (as : List Action) (s1 : State) (p : packet_t) (hw : HwInput)
    (htrip : MAX_CURRENT_SENSE_CYCLES ≤ (ADC_vect s ADCL ADCH).g_current_sense_num_cycles) :
    (motor_speed (run render (ADC_vect s ADCL ADCH) as) = 0 ∧
      (run render (ADC_vect s ADCL ADCH) as).g_is_dispensing = 0 ∧
      (run render (ADC_vect s ADCL ADCH) as).g_dispense_target_ticks = 0 ∧
      (run render (ADC_vect s ADCL ADCH) as).g_current_sense_detected = 1) ∧
    (s1.g_current_sense_detected = 1 →
      (p.type = PacketType.PACKET_SET_MOTOR_SPEED ∨ p.type = PacketType.PACKET_TICK_DISPENSE ∨
        p.type = PacketType.PACKET_TIME_DISPENSE) →
      motor_speed (main_dispatch s1 p hw) = motor_speed s1 ∧
      (main_dispatch s1 p hw).g_is_dispensing = s1.g_is_dispensing ∧
      (main_dispatch s1 p hw).g_dispense_target_ticks = s1.g_dispense_target_ticks) := by
  constructor
  · have hs := ADC_vect_session s ADCL ADCH
    rw [if_pos htrip] at hs
    have h0 : fault_latched (ADC_vect s ADCL ADCH) := ⟨hs.2.2.2.1, hs.1, hs.2.1, hs.2.2.1⟩
    obtain ⟨r1, r2, r3, r4⟩ := run_fault_latched render as _ h0
    rw [motor_speed, r2]
    exact ⟨rfl, r3, r4, r1⟩
  · intro hcs _
    have h := main_dispatch_session_of_fault s1 p hw (by rw [hcs]; decide)
    simp only [session_fields, Prod.mk.injEq] at h
    rw [motor_speed, motor_speed, h.2.1]
    exact ⟨rfl, h.2.2.1, h.2.2.2⟩

/-- Instance of `latched_fault_keeps_motor_off`: the third over-threshold
sample of a session trips, then the bus sends set-motor-speed 255,
dispense-by-ticks 10 and dispense-by-duration 5 around an edge and an `idle`
call. -/
theorem latched_fault_keeps_motor_off_witness :
    motor_speed (run (fun _ _ => ⟨0, 0, 0⟩)
      (ADC_vect (isrs (dispense_ticks (State.init 5 0) 100) (adc_irqs [(255, 1), (255, 1)])) 255 1)
      [Action.command ⟨5, PacketType.PACKET_SET_MOTOR_SPEED, 255, 0, 0⟩ ⟨fun _ => (0, 0), []⟩,
       Action.command ⟨5, PacketType.PACKET_TICK_DISPENSE, 0, 0, 10⟩ ⟨fun _ => (0, 0), []⟩,
       Action.irq (Irq.PCINT0 1), Action.idle,
       Action.command ⟨5, PacketType.PACKET_TIME_DISPENSE, 0, 0, 5⟩ ⟨fun _ => (0, 0), []⟩]) = 0 ∧
    motor_speed (main_dispatch
      (ADC_vect (isrs (dispense_ticks (State.init 5 0) 100) (adc_irqs [(255, 1), (255, 1)])) 255 1)
      ⟨5, PacketType.PACKET_SET_MOTOR_SPEED, 255, 0, 0⟩ ⟨fun _ => (0, 0), []⟩) = 0 :=
  have h := latched_fault_keeps_motor_off (fun _ _ => ⟨0, 0, 0⟩)
    (isrs (dispense_ticks (State.init 5 0) 100) (adc_irqs [(255, 1), (255, 1)])) 255 1
    [Action.command ⟨5, PacketType.PACKET_SET_MOTOR_SPEED, 255, 0, 0⟩ ⟨fun _ => (0, 0), []⟩,
     Action.command ⟨5, PacketType.PACKET_TICK_DISPENSE, 0, 0, 10⟩ ⟨fun _ => (0, 0), []⟩,
     Action.irq (Irq.PCINT0 1), Action.idle,
     Action.command ⟨5, PacketType.PACKET_TIME_DISPENSE, 0, 0, 5⟩ ⟨fun _ => (0, 0), []⟩]
    (ADC_vect (isrs (dispense_ticks (State.init 5 0) 100) (adc_irqs [(255, 1), (255, 1)])) 255 1)
    ⟨5, PacketType.PACKET_SET_MOTOR_SPEED, 255, 0, 0⟩ ⟨fun _ => (0, 0), []⟩ (by decide)
  ⟨h.1.1, (h.2 (by decide) (Or.inl rfl)).1.trans (by decide)⟩

/-! ### A trip between the fault-flag copy and the switch (C3) -/

theorem main_dispatch_interleaved_nil (s : State) (p : packet_t) (hw : HwInput) :
    main_dispatch_interleaved s p hw [] = main_dispatch s p hw := rfl

set_option maxRecDepth 8000

/-- C3, the interleaving at which the code departs from the claim.  A session
has seen two over-threshold samples and the bus sends set-motor-speed 255.  The
dispatcher copies the fault flag (still 0), the third over-threshold sample is
handled (the trip: fault latched, motor 0, no session) and then the switch runs
on the stale copy: the fault is latched and the motor runs at 255.  A later
set-motor-speed 0 is suppressed by the latched fault, so the motor keeps
running until the main loop's reinitialisation.  Dispense-by-ticks in place of
set-motor-speed starts a new session the same way.  With the same sample
handled before the copy, the command is suppressed. -/
theorem fault_trip_after_flag_copy_energizes_motor :
    near_trip_state.g_current_sense_detected = 0 ∧
    near_trip_state.g_is_dispensing = 1 ∧
    isrs near_trip_state [Irq.ADC 255 1] = tripped_state ∧
    fault_latched tripped_state ∧
    raced_state.g_current_sense_detected = 1 ∧
    motor_speed raced_state = 255 ∧
    motor_speed (main_dispatch raced_state
      ⟨5, PacketType.PACKET_SET_MOTOR_SPEED, 0, 0, 0⟩ ⟨fun _ => (0, 0), []⟩) = 255 ∧
    motor_speed (run (fun _ _ => ⟨0, 0, 0⟩) raced_state
      [Action.command ⟨5, PacketType.PACKET_SET_MOTOR_SPEED, 0, 0, 0⟩ ⟨fun _ => (0, 0), []⟩,
       Action.irq (Irq.PCINT0 1), Action.idle]) = 255 ∧
    motor_speed (main_loop_init raced_state) = 0 ∧
    (main_dispatch_interleaved near_trip_state
      ⟨5, PacketType.PACKET_TICK_DISPENSE, 0, 0, 10⟩ ⟨fun _ => (0, 0), []⟩
      [Irq.ADC 255 1]).g_current_sense_detected = 1 ∧
    (main_dispatch_interleaved near_trip_state
      ⟨5, PacketType.PACKET_TICK_DISPENSE, 0, 0, 10⟩ ⟨fun _ => (0, 0), []⟩
      [Irq.ADC 255 1]).g_is_dispensing = 1 ∧
    motor_speed (main_dispatch_interleaved near_trip_state
      ⟨5, PacketType.PACKET_TICK_DISPENSE, 0, 0, 10⟩ ⟨fun _ => (0, 0), []⟩
      [Irq.ADC 255 1]) = 255 ∧
    motor_speed (main_dispatch (isrs near_trip_state [Irq.ADC 255 1])
      ⟨5, PacketType.PACKET_SET_MOTOR_SPEED, 255, 0, 0⟩ ⟨fun _ => (0, 0), []⟩) = 0 := by
  refine ⟨rfl, rfl, rfl, ⟨rfl, rfl, rfl, rfl⟩, rfl, rfl, rfl, rfl, rfl, rfl, rfl, rfl, rfl⟩

/-! ### LED commands under a latched fault (C4) -/

set_option maxRecDepth 8000

/-- The four pattern-installing LED commands are gated by the fault flag: with
the flag set they leave the whole state unchanged. -/
theorem led_pattern_commands_suppressed (s : State) (p : packet_t) (hw : HwInput)
    (hcs : s.g_current_sense_detected ≠ 0)
    (hp : p.type = PacketType.PACKET_LED_IDLE ∨ p.type = PacketType.PACKET_LED_DISPENSE ∨
      p.type = PacketType.PACKET_LED_DRINK_DONE ∨ p.type = PacketType.PACKET_LED_CLEAN) :
    main_dispatch s p hw = s := by
  obtain ⟨dest, type, b, w, d⟩ := p
  rcases hp with h | h | h | h <;> simp only at h <;> subst h <;>
    simp only [main_dispatch, main_switch, hcs, if_false]

/-- C4, evaluated at the failing input: with the fault latched
(`g_current_sense_detected = 1`, fault pattern installed with divisor 20, frame
counter 1, LED red) a dispatched led-off command is not suppressed: it removes
the pattern, sets the divisor to 255, clears the frame counter and switches the
LED output to (0,0,0). -/
theorem led_off_not_suppressed_under_fault :
    fault_showing_state.g_current_sense_detected = 1 ∧
    fault_showing_state.g_led_function = some LedFunction.led_pattern_current_sense ∧
    fault_showing_state.g_sync_divisor = 20 ∧
    fault_showing_state.g_pattern_t = 1 ∧
    fault_showing_state.led = ⟨255, 0, 0⟩ ∧
    (main_dispatch fault_showing_state ⟨5, PacketType.PACKET_LED_OFF, 0, 0, 0⟩
      ⟨fun _ => (0, 0), []⟩).g_led_function = none ∧
    (main_dispatch fault_showing_state ⟨5, PacketType.PACKET_LED_OFF, 0, 0, 0⟩
      ⟨fun _ => (0, 0), []⟩).g_sync_divisor = 255 ∧
    (main_dispatch fault_showing_state ⟨5, PacketType.PACKET_LED_OFF, 0, 0, 0⟩
      ⟨fun _ => (0, 0), []⟩).g_pattern_t = 0 ∧
    (main_dispatch fault_showing_state ⟨5, PacketType.PACKET_LED_OFF, 0, 0, 0⟩
      ⟨fun _ => (0, 0), []⟩).led = ⟨0, 0, 0⟩ := by
  refine ⟨?_, ?_, ?_, ?_, ?_, ?_, ?_, ?_, ?_⟩ <;> rfl

/-! ### Bus reset and the session (C5) -/

/-- The reinitialisation at the top of the outer loop writes neither session
variable. -/
theorem main_loop_init_keeps_session (s : State) :
    (main_loop_init s).g_is_dispensing = s.g_is_dispensing ∧
    (main_loop_init s).g_dispense_target_ticks = s.g_dispense_target_ticks := by
  exact ⟨rfl, rfl⟩

/-- C5, evaluated at the failing input: an active session of 100 ticks, a reset
pulse that latches `g_reset`, then the reinitialisation at the top of the outer
loop.  The motor is stopped and the latch cleared, but `g_is_dispensing` is
still 1 and `g_dispense_target_ticks` still 100, and a following
`dispense_ticks 50` is ignored. -/
theorem reset_leaves_session_active :
    active_state.g_is_dispensing = 1 ∧
    (isrs active_state reset_pulse).g_reset = 1 ∧
    (main_loop_init (isrs active_state reset_pulse)).g_reset = 0 ∧
    motor_speed (main_loop_init (isrs active_state reset_pulse)) = 0 ∧
    (main_loop_init (isrs active_state reset_pulse)).g_is_dispensing = 1 ∧
    (main_loop_init (isrs active_state reset_pulse)).g_dispense_target_ticks = 100 ∧
    dispense_ticks (main_loop_init (isrs active_state reset_pulse)) 50 =
      main_loop_init (isrs active_state reset_pulse) := by
  refine ⟨?_, ?_, ?_, ?_, ?_, ?_, ?_⟩ <;> rfl

/-! ### Second dispense while active (C6) -/

/-- C6: with a session active (`g_is_dispensing` non-zero) `dispense_ticks T`
leaves `g_dispense_target_ticks`, `g_is_dispensing`, `g_ticks`, the motor speed
and the current-sense counter as they were; indeed it returns the state
unchanged. -/
theorem dispense_ticks_noop_when_active (s : State) (T : Nat) (h : s.g_is_dispensing ≠ 0) :
    (dispense_ticks s T).g_dispense_target_ticks = s.g_dispense_target_ticks ∧
    (dispense_ticks s T).g_is_dispensing = s.g_is_dispensing ∧
    (dispense_ticks s T).g_ticks = s.g_ticks ∧
    motor_speed (dispense_ticks s T) = motor_speed s ∧
    (dispense_ticks s T).g_current_sense_num_cycles = s.g_current_sense_num_cycles ∧
    dispense_ticks s T = s := by
  have : dispense_ticks s T = s := by
    unfold dispense_ticks
    simp only [h, ne_eq, not_false_eq_true, if_true]
  rw [this]
  exact ⟨rfl, rfl, rfl, rfl, rfl, rfl⟩

/-- Witness for C6: a second request of 7 ticks during the 100-tick session. -/
theorem dispense_ticks_noop_when_active_witness :
    (dispense_ticks active_state 7).g_dispense_target_ticks = 100 ∧
    dispense_ticks active_state 7 = active_state :=
  have h := dispense_ticks_noop_when_active active_state 7 (by decide)
  ⟨h.1.trans (by decide), h.2.2.2.2.2⟩

/-! ### Reset pulse (C8) -/

/-- What `n` time-base overflows do to the variables of the reset detector. -/
theorem timer_overflows (n : Nat) : ∀ (s : State), s.g_time + n < 2 ^ 32 →
    (isrs s (List.replicate n Irq.TIMER1_OVF)).g_time = s.g_time + n ∧
    (isrs s (List.replicate n Irq.TIMER1_OVF)).g_reset_fe_time = s.g_reset_fe_time ∧
    (isrs s (List.replicate n Irq.TIMER1_OVF)).g_reset = s.g_reset := by
  induction n with
  | zero => intro s _; exact ⟨rfl, rfl, rfl⟩
  | succ n ih =>
    intro s h
    have h1 : (TIMER1_OVF_vect s).g_time = s.g_time + 1 := by
      simp only [TIMER1_OVF_vect, u32]
      exact Nat.mod_eq_of_lt (by omega)
    obtain ⟨a, b, c⟩ := ih (TIMER1_OVF_vect s) (by rw [h1]; omega)
    simp only [isrs, List.replicate_succ, List.foldl_cons, isr] at a b c ⊢
    rw [a, b, c, h1]
    exact ⟨by omega, rfl, rfl⟩

theorem INT0_vect_high (s : State) (PIND : Nat) (h : PIND &&& (1 <<< PIND2) ≠ 0) :
    (INT0_vect s PIND).g_time = s.g_time ∧
    (INT0_vect s PIND).g_reset_fe_time = u32 (s.g_time + RESET_DURATION) ∧
    (INT0_vect s PIND).g_reset = s.g_reset := by
  simp only [INT0_vect, h, ne_eq, not_false_eq_true, if_true, and_self]

theorem INT0_vect_low (s : State) (PIND : Nat) (h : PIND &&& (1 <<< PIND2) = 0) :
    (INT0_vect s PIND).g_reset =
      (if s.g_reset_fe_time > 0 ∧ s.g_time ≥ s.g_reset_fe_time then 1 else s.g_reset) ∧
    (INT0_vect s PIND).g_reset_fe_time = 0 := by
  unfold INT0_vect
  rw [if_neg (by rw [h]; exact fun hn => hn rfl)]
  split_ifs <;> exact ⟨rfl, rfl⟩

/-- C8: the pulse-start edge is handled at time-base value `t0` with the latch
clear, the time base then advances to `t1 ≥ t0` (both 32-bit values), and the
pulse-end edge is handled.  Afterwards `g_reset` is set if and only if
`t1 - t0 ≥ RESET_DURATION`, a shorter pulse leaves it clear, and in both cases
`g_reset_fe_time` is 0. -/
theorem reset_pulse_debounce (s : State) (t0 t1 PINDstart PINDend : Nat)
    (hstart : PINDstart &&& (1 <<< PIND2) ≠ 0) (hend : PINDend &&& (1 <<< PIND2) = 0)
    (h0 : s.g_time = t0) (hle : t0 ≤ t1) (h32 : t1 < 2 ^ 32) (hclear : s.g_reset = 0) :
    ((INT0_vect (isrs (INT0_vect s PINDstart) (List.replicate (t1 - t0) Irq.TIMER1_OVF))
        PINDend).g_reset = 1 ↔ RESET_DURATION ≤ t1 - t0) ∧
    (t1 - t0 < RESET_DURATION →
      (INT0_vect (isrs (INT0_vect s PINDstart) (List.replicate (t1 - t0) Irq.TIMER1_OVF))
        PINDend).g_reset = 0) ∧
    (INT0_vect (isrs (INT0_vect s PINDstart) (List.replicate (t1 - t0) Irq.TIMER1_OVF))
      PINDend).g_reset_fe_time = 0 := by
  obtain ⟨s1, s2, s3⟩ := INT0_vect_high s PINDstart hstart
  obtain ⟨a, b, c⟩ := timer_overflows (t1 - t0) (INT0_vect s PINDstart) (by rw [s1, h0]; omega)
  rw [s1, h0] at a
  rw [s2, h0, u32, RESET_DURATION] at b
  rw [s3, hclear] at c
  obtain ⟨l1, l2⟩ := INT0_vect_low
    (isrs (INT0_vect s PINDstart) (List.replicate (t1 - t0) Irq.TIMER1_OVF)) PINDend hend
  rw [a, b, c] at l1
  rw [l1, l2, RESET_DURATION]
  refine ⟨?_, ?_, rfl⟩
  · split_ifs with h
    · simp only [true_iff]; omega
    · simp only [zero_ne_one, false_iff]; omega
  · intro hlt
    split_ifs with h
    · omega
    · rfl

/-- Witness for C8: start edge at time 10, end edge at time 11. -/
theorem reset_pulse_debounce_witness :
    (INT0_vect (isrs (INT0_vect { State.init 5 0 with g_time := 10 } 4)
      (List.replicate (11 - 10) Irq.TIMER1_OVF)) 0).g_reset = 1 ∧
    (INT0_vect (isrs (INT0_vect { State.init 5 0 with g_time := 10 } 4)
      (List.replicate (10 - 10) Irq.TIMER1_OVF)) 0).g_reset = 0 :=
  ⟨(reset_pulse_debounce { State.init 5 0 with g_time := 10 } 10 11 4 0 (by decide) (by decide)
      rfl (by decide) (by decide) rfl).1.2 (by decide),
   (reset_pulse_debounce { State.init 5 0 with g_time := 10 } 10 10 4 0 (by decide) (by decide)
      rfl (by decide) (by decide) rfl).2.1 (by decide)⟩

/-! ### Reset poll (C9) -/

/-- C9 fails as stated: after a latching reset pulse `check_reset` returns 1,
the latch `g_reset` is still 1 afterwards, and a second `check_reset` with no
new pulse returns 1 again. -/
theorem check_reset_does_not_clear :
    (check_reset (isrs (State.init 5 0) reset_pulse)).1 = 1 ∧
    (check_reset (isrs (State.init 5 0) reset_pulse)).2.g_reset = 1 ∧
    (check_reset (check_reset (isrs (State.init 5 0) reset_pulse)).2).1 = 1 := by
  refine ⟨?_, ?_, ?_⟩ <;> rfl

/-! ### Address negotiation (C10) -/

theorem cdc_tx_reset (s : State) :
    (check_dispense_complete_isr s).tx = s.tx ∧
    (check_dispense_complete_isr s).g_reset = s.g_reset := by
  unfold check_dispense_complete_isr set_motor_speed adc_shutdown
  split_ifs <;> exact ⟨rfl, rfl⟩

theorem pcint0_halls_tx_reset (s : State) (PINB : Nat) :
    (pcint0_halls s PINB).tx = s.tx ∧ (pcint0_halls s PINB).g_reset = s.g_reset := by
  unfold pcint0_halls
  simp only []
  split_ifs <;> simp

theorem pcint2_halls_tx_reset (s : State) (PIND : Nat) :
    (pcint2_halls s PIND).tx = s.tx ∧ (pcint2_halls s PIND).g_reset = s.g_reset := by
  unfold pcint2_halls
  simp only []
  split_ifs <;> simp

theorem pcint0_sync_tx_reset (s : State) (PINB : Nat) :
    (pcint0_sync s PINB).tx = s.tx ∧ (pcint0_sync s PINB).g_reset = s.g_reset := by
  unfold pcint0_sync
  simp only []
  split_ifs <;> simp

theorem ADC_vect_tx_reset (s : State) (ADCL ADCH : Nat) :
    (ADC_vect s ADCL ADCH).tx = s.tx ∧ (ADC_vect s ADCL ADCH).g_reset = s.g_reset := by
  unfold ADC_vect set_motor_speed set_led_pattern set_led_rgb
  simp only []
  split_ifs <;> simp

/-- No interrupt handler writes to the serial line. -/
theorem isr_tx (s : State) (i : Irq) : (isr s i).tx = s.tx := by
  cases i with
  | TIMER1_OVF => rfl
  | INT0 PIND =>
    simp only [isr, INT0_vect]
    split_ifs <;> rfl
  | PCINT0 PINB =>
    simp only [isr, PCINT0_vect_eq]
    rw [(pcint0_sync_tx_reset _ _).1, (cdc_tx_reset _).1, (pcint0_halls_tx_reset _ _).1]
  | PCINT2 PIND =>
    simp only [isr, PCINT2_vect_eq]
    rw [(cdc_tx_reset _).1, (pcint2_halls_tx_reset _ _).1]
  | ADC ADCL ADCH => exact (ADC_vect_tx_reset s ADCL ADCH).1

/-- Only the reset-line handler writes the reset latch. -/
theorem isr_g_reset (s : State) (i : Irq) (h : ∀ PIND, i ≠ Irq.INT0 PIND) :
    (isr s i).g_reset = s.g_reset := by
  cases i with
  | TIMER1_OVF => rfl
  | INT0 PIND => exact absurd rfl (h PIND)
  | PCINT0 PINB =>
    simp only [isr, PCINT0_vect_eq]
    rw [(pcint0_sync_tx_reset _ _).2, (cdc_tx_reset _).2, (pcint0_halls_tx_reset _ _).2]
  | PCINT2 PIND =>
    simp only [isr, PCINT2_vect_eq]
    rw [(cdc_tx_reset _).2, (pcint2_halls_tx_reset _ _).2]
  | ADC ADCL ADCH => exact (ADC_vect_tx_reset s ADCL ADCH).2

theorem polls_before_terminator_cons (b : Nat) (bs : List Nat) :
    polls_before_terminator (b :: bs) =
      if b = 0xFF then 0 else (if b = 63 then 1 else 0) + polls_before_terminator bs := by
  unfold polls_before_terminator
  by_cases h : b = 0xFF
  · subst h; simp
  · by_cases h2 : b = 63
    · subst h2; simp [List.takeWhile_cons]; omega
    · simp [List.takeWhile_cons, h, List.count_cons, h2]

/-- The receive loop with the latch clear and no reset-line interrupt: it ends
at the first terminator byte, having answered every poll byte before it. -/
theorem address_exchange_loop_completes (id : Nat) (evs : List BusEvent) : ∀ (s : State),
    s.g_reset = 0 → no_reset_edge evs → 0xFF ∈ rx_bytes evs →
    (address_exchange_loop id s evs).1 = some id ∧
    (address_exchange_loop id s evs).2.tx =
      s.tx ++ List.replicate (polls_before_terminator (rx_bytes evs)) (SerialOut.byte id) := by
  induction evs with
  | nil => intro s _ _ h; simp [rx_bytes] at h
  | cons ev evs ih =>
    intro s hr hno hmem
    cases ev with
    | rx ch =>
      simp only [rx_bytes, polls_before_terminator_cons, address_exchange_loop]
      by_cases hch : ch = 0xFF
      · simp only [hch, if_true, set_led_rgb, List.replicate_zero, List.append_nil, and_self]
      · simp only [hch, if_false]
        have hmem' : 0xFF ∈ rx_bytes evs := by
          simp only [rx_bytes, List.mem_cons] at hmem
          rcases hmem with h | h
          · exact absurd h.symm hch
          · exact h
        by_cases h63 : ch = 63
        · simp only [h63, if_true]
          obtain ⟨a, b⟩ := ih (serial_tx s id) hr hno hmem'
          rw [a, b]
          refine ⟨rfl, ?_⟩
          simp only [serial_tx, List.append_assoc, List.singleton_append]
          rw [Nat.add_comm, List.replicate_succ]
        · simp only [h63, if_false, Nat.zero_add]
          exact ih s hr hno hmem'
    | norx =>
      have hc : (check_reset s).1 = 0 := by simp [check_reset, hr, u8]
      simp only [address_exchange_loop, hc, ne_eq, not_true_eq_false, if_false, rx_bytes]
      exact ih s hr hno hmem
    | irq i =>
      have hi : ∀ PIND, i ≠ Irq.INT0 PIND := by
        intro PIND h
        subst h
        exact hno
      have hno' : no_reset_edge evs := by
        cases i <;> first | exact hno | exact absurd rfl (hi _)
      simp only [address_exchange_loop, rx_bytes]
      obtain ⟨a, b⟩ := ih (isr s i) (by rw [isr_g_reset s i hi, hr]) hno' hmem
      rw [a, b, isr_tx]
      exact ⟨rfl, rfl⟩

/-- The halt loop of an unconfigured node never writes to the serial line. -/
theorem address_exchange_halt_tx (evs : List BusEvent) : ∀ (s : State),
    (address_exchange_halt s evs).tx = s.tx := by
  induction evs with
  | nil => intro s; rfl
  | cons ev evs ih =>
    intro s
    cases ev with
    | rx ch => exact ih s
    | norx => exact ih s
    | irq i =>
      simp only [address_exchange_halt]
      rw [ih, isr_tx]

/-- The receive loop run over interrupts only, followed by a poll that finds
no byte while the latch is set: the loop returns 0xFF. -/
theorem address_exchange_loop_aborts (id : Nat) (irqs : List Irq) (rest : List BusEvent) :
    ∀ (s : State), (isrs s irqs).g_reset = 1 →
    address_exchange_loop id s (irqs.map BusEvent.irq ++ BusEvent.norx :: rest) =
      (some 0xFF, isrs s irqs) := by
  induction irqs with
  | nil =>
    intro s h
    have hc : (check_reset s).1 ≠ 0 := by
      simp only [isrs, List.foldl_nil] at h
      simp [check_reset, h, u8]
    simp only [List.map_nil, List.nil_append, address_exchange_loop, isrs, List.foldl_nil]
    rw [if_pos hc]
    rfl
  | cons i irqs ih =>
    intro s h
    simp only [List.map_cons, List.cons_append, address_exchange_loop]
    exact ih (isr s i) h

/-! ### Address negotiation on arbitrary streams (C10) -/

theorem cdc_with_out (s : State) (l : color_t) (t : List SerialOut) :
    check_dispense_complete_isr { s with led := l, tx := t } =
      { check_dispense_complete_isr s with led := l, tx := t } := by
  unfold check_dispense_complete_isr set_motor_speed adc_shutdown
  simp only []
  split_ifs <;> rfl

theorem pcint0_halls_with_out (s : State) (PINB : Nat) (l : color_t) (t : List SerialOut) :
    pcint0_halls { s with led := l, tx := t } PINB =
      { pcint0_halls s PINB with led := l, tx := t } := by
  unfold pcint0_halls
  simp only []
  split_ifs <;> rfl

theorem pcint0_sync_with_out (s : State) (PINB : Nat) (l : color_t) (t : List SerialOut) :
    pcint0_sync { s with led := l, tx := t } PINB =
      { pcint0_sync s PINB with led := l, tx := t } := by
  unfold pcint0_sync
  simp only []
  split_ifs <;> rfl

theorem pcint2_halls_with_out (s : State) (PIND : Nat) (l : color_t) (t : List SerialOut) :
    pcint2_halls { s with led := l, tx := t } PIND =
      { pcint2_halls s PIND with led := l, tx := t } := by
  unfold pcint2_halls
  simp only []
  split_ifs <;> rfl

theorem INT0_vect_with_out (s : State) (PIND : Nat) (l : color_t) (t : List SerialOut) :
    INT0_vect { s with led := l, tx := t } PIND =
      { INT0_vect s PIND with led := l, tx := t } := by
  unfold INT0_vect
  simp only []
  split_ifs <;> rfl

theorem ADC_vect_with_out (s : State) (ADCL ADCH : Nat) (l : color_t) (t : List SerialOut) :
    ADC_vect { s with led := l, tx := t } ADCL ADCH =
      { ADC_vect s ADCL ADCH with led := l, tx := t } := by
  unfold ADC_vect set_motor_speed set_led_pattern set_led_rgb
  simp only [reduceCtorEq, if_false]
  split_ifs <;> rfl

/-- No interrupt handler reads or writes the LED colour or the serial log. -/
theorem isr_with_output (s : State) (i : Irq) (l : color_t) (t : List SerialOut) :
    isr (with_output s l t) i = with_output (isr s i) l t := by
  unfold with_output
  cases i with
  | TIMER1_OVF => rfl
  | INT0 PIND => exact INT0_vect_with_out s PIND l t
  | PCINT0 PINB =>
    simp only [isr, PCINT0_vect_eq]
    rw [pcint0_halls_with_out, cdc_with_out, pcint0_sync_with_out]
  | PCINT2 PIND =>
    simp only [isr, PCINT2_vect_eq]
    rw [pcint2_halls_with_out, cdc_with_out]
  | ADC ADCL ADCH => exact ADC_vect_with_out s ADCL ADCH l t

theorem serial_tx_with_output (s : State) (l : color_t) (t : List SerialOut) (b : Nat) :
    serial_tx (with_output s l t) b = with_output s l (t ++ [SerialOut.byte b]) := rfl

theorem check_reset_with_output (s : State) (l : color_t) (t : List SerialOut) :
    (check_reset (with_output s l t)).1 = (check_reset s).1 ∧
    (check_reset (with_output s l t)).2 = with_output s l t := ⟨rfl, rfl⟩

/-- The receive loop over a prefix that holds no terminator and no poll at
which the latch reads set: the handlers of the prefix have run, one id byte has
been sent per poll byte, and the loop goes on with the rest of the stream. -/
theorem address_exchange_loop_prefix (id : Nat) (pre rest : List BusEvent) :
    ∀ (y : State) (l : color_t) (t : List SerialOut),
    0xFF ∉ rx_bytes pre → polls_clear y pre = true →
    address_exchange_loop id (with_output y l t) (pre ++ rest) =
      address_exchange_loop id
        (with_output (isrs y (irq_events pre)) l
          (t ++ List.replicate ((rx_bytes pre).count 63) (SerialOut.byte id)))
        rest := by
  induction pre with
  | nil =>
    intro y l t _ _
    simp only [List.nil_append, rx_bytes, irq_events, isrs, List.foldl_nil, List.count_nil,
      List.replicate_zero, List.append_nil]
  | cons ev pre ih =>
    intro y l t hmem hclear
    cases ev with
    | rx ch =>
      simp only [rx_bytes, List.mem_cons, not_or] at hmem
      have hch : ch ≠ 0xFF := fun h => hmem.1 h.symm
      simp only [polls_clear] at hclear
      simp only [List.cons_append, address_exchange_loop, hch, if_false, rx_bytes, irq_events]
      by_cases h63 : ch = 63
      · simp only [h63, if_true, serial_tx_with_output]
        refine (ih y l (t ++ [SerialOut.byte id]) hmem.2 hclear).trans ?_
        simp only [List.count_cons_self, List.append_assoc, List.singleton_append,
          List.replicate_succ]
      · simp only [h63, if_false]
        refine (ih y l t hmem.2 hclear).trans ?_
        rw [List.count_cons_of_ne (fun h => h63 h.symm)]
    | norx =>
      simp only [polls_clear, Bool.and_eq_true, decide_eq_true_eq] at hclear
      simp only [List.cons_append, address_exchange_loop, check_reset_with_output, hclear.1, ne_eq,
        not_true_eq_false, if_false, rx_bytes, irq_events]
      exact ih y l t hmem hclear.2
    | irq i =>
      simp only [List.cons_append, address_exchange_loop, rx_bytes, irq_events, polls_clear]
        at hmem hclear ⊢
      rw [isr_with_output]
      exact ih (isr y i) l t hmem hclear

theorem rx_bytes_append (a b : List BusEvent) :
    rx_bytes (a ++ b) = rx_bytes a ++ rx_bytes b := by
  induction a with
  | nil => rfl
  | cons ev a ih =>
    cases ev with
    | rx ch => exact congrArg (List.cons ch) ih
    | norx => exact ih
    | irq i => exact ih

theorem polls_before_terminator_prefix (bs cs : List Nat) (h : 0xFF ∉ bs) :
    polls_before_terminator (bs ++ 0xFF :: cs) = bs.count 63 := by
  induction bs with
  | nil => simp [polls_before_terminator]
  | cons b bs ih =>
    simp only [List.mem_cons, not_or] at h
    have hb : b ≠ 0xFF := fun e => h.1 e.symm
    rw [List.cons_append, polls_before_terminator_cons, if_neg hb, ih h.2]
    by_cases h63 : b = 63
    · subst h63
      simp only [if_true, List.count_cons_self]
      omega
    · simp only [h63, if_false, Nat.zero_add]
      rw [List.count_cons_of_ne (fun e => h63 e.symm)]

/-- Every event stream has a first decisive event or none: the first
terminator byte, reached with the latch clear at every empty poll before it; or
the first empty poll at which the latch reads set, with no terminator before
it; or neither. -/
theorem negotiation_cases (evs : List BusEvent) : ∀ (s : State),
    (∃ pre post, evs = pre ++ BusEvent.rx 0xFF :: post ∧ 0xFF ∉ rx_bytes pre ∧
      polls_clear s pre = true) ∨
    (∃ pre post, evs = pre ++ BusEvent.norx :: post ∧ 0xFF ∉ rx_bytes pre ∧
      polls_clear s pre = true ∧ (check_reset (isrs s (irq_events pre))).1 ≠ 0) ∨
    (0xFF ∉ rx_bytes evs ∧ polls_clear s evs = true) := by
  induction evs with
  | nil =>
    intro s
    exact Or.inr (Or.inr ⟨by simp [rx_bytes], rfl⟩)
  | cons ev evs ih =>
    intro s
    cases ev with
    | rx ch =>
      by_cases hch : ch = 0xFF
      · subst hch
        exact Or.inl ⟨[], evs, rfl, by simp [rx_bytes], rfl⟩
      · have hne : ¬ (0xFF = ch) := fun e => hch e.symm
        rcases ih s with ⟨pre, post, e, hm, hc⟩ | ⟨pre, post, e, hm, hc, hl⟩ | ⟨hm, hc⟩
        · refine Or.inl ⟨BusEvent.rx ch :: pre, post, by rw [e]; rfl, ?_, hc⟩
          simp only [rx_bytes, List.mem_cons, not_or]
          exact ⟨hne, hm⟩
        · refine Or.inr (Or.inl ⟨BusEvent.rx ch :: pre, post, by rw [e]; rfl, ?_, hc, hl⟩)
          simp only [rx_bytes, List.mem_cons, not_or]
          exact ⟨hne, hm⟩
        · refine Or.inr (Or.inr ⟨?_, hc⟩)
          simp only [rx_bytes, List.mem_cons, not_or]
          exact ⟨hne, hm⟩
    | norx =>
      by_cases hl0 : (check_reset s).1 = 0
      · have hd : decide ((check_reset s).1 = 0) = true := decide_eq_true hl0
        rcases ih s with ⟨pre, post, e, hm, hc⟩ | ⟨pre, post, e, hm, hc, hl⟩ | ⟨hm, hc⟩
        · refine Or.inl ⟨BusEvent.norx :: pre, post, by rw [e]; rfl, hm, ?_⟩
          simp only [polls_clear, hd, hc, Bool.and_self]
        · refine Or.inr (Or.inl ⟨BusEvent.norx :: pre, post, by rw [e]; rfl, hm, ?_, hl⟩)
          simp only [polls_clear, hd, hc, Bool.and_self]
        · refine Or.inr (Or.inr ⟨hm, ?_⟩)
          simp only [polls_clear, hd, hc, Bool.and_self]
      · exact Or.inr (Or.inl ⟨[], evs, rfl, by simp [rx_bytes], rfl, hl0⟩)
    | irq i =>
      rcases ih (isr s i) with ⟨pre, post, e, hm, hc⟩ | ⟨pre, post, e, hm, hc, hl⟩ | ⟨hm, hc⟩
      · exact Or.inl ⟨BusEvent.irq i :: pre, post, by rw [e]; rfl, hm, hc⟩
      · exact Or.inr (Or.inl ⟨BusEvent.irq i :: pre, post, by rw [e]; rfl, hm, hc, hl⟩)
      · exact Or.inr (Or.inr ⟨hm, hc⟩)

/-- With a stored id in [1,254], `address_exchange` is the receive loop started
with the LED blue. -/
theorem address_exchange_valid (s : State) (evs : List BusEvent)
    (h1 : 1 ≤ s.ee_pump_id) (h254 : s.ee_pump_id ≤ 254) :
    address_exchange s evs =
      address_exchange_loop s.ee_pump_id (with_output s ⟨0, 0, 255⟩ s.tx) evs := by
  have hid : u8 s.ee_pump_id = s.ee_pump_id := Nat.mod_eq_of_lt (by omega)
  have hvalid : ¬ (u8 s.ee_pump_id = 0 ∨ u8 s.ee_pump_id = 255) := by
    rw [hid]; omega
  simp only [address_exchange, set_led_rgb, hvalid, if_false]
  rw [hid]
  rfl

/-- C10: for a stored id in [1,254] and any event stream (received bytes, polls
that find no byte, interrupt handlers) `pre` that holds no terminator 0xFF and
in which the reset latch reads clear at every poll that finds no byte:
if the terminator follows, `address_exchange` returns the id, has transmitted
exactly one id byte per poll byte `?` received before the first 0xFF and
nothing else, and has turned the LED green; if instead a poll that finds no
byte follows while the latch is set, it returns 0xFF with one id byte per poll
byte answered so far, the LED still blue and the latch still set; if the stream
ends there, it has not returned.  Every event stream `evs` is of one of these
three forms.  For a stored id of 0 or 255 it returns on no event stream and
transmits nothing. -/
theorem address_exchange_negotiates (s : State) (evs pre post : List BusEvent) :
    (1 ≤ s.ee_pump_id → s.ee_pump_id ≤ 254 → 0xFF ∉ rx_bytes pre → polls_clear s pre = true →
      ((address_exchange s (pre ++ BusEvent.rx 0xFF :: post)).1 = some s.ee_pump_id ∧
        (address_exchange s (pre ++ BusEvent.rx 0xFF :: post)).2.tx =
          s.tx ++ List.replicate
            (polls_before_terminator (rx_bytes (pre ++ BusEvent.rx 0xFF :: post)))
            (SerialOut.byte s.ee_pump_id) ∧
        (address_exchange s (pre ++ BusEvent.rx 0xFF :: post)).2.led = ⟨0, 255, 0⟩) ∧
      ((check_reset (isrs s (irq_events pre))).1 ≠ 0 →
        (address_exchange s (pre ++ BusEvent.norx :: post)).1 = some 0xFF ∧
        (address_exchange s (pre ++ BusEvent.norx :: post)).2.tx =
          s.tx ++ List.replicate ((rx_bytes pre).count 63) (SerialOut.byte s.ee_pump_id) ∧
        (address_exchange s (pre ++ BusEvent.norx :: post)).2.led = ⟨0, 0, 255⟩ ∧
        (check_reset (address_exchange s (pre ++ BusEvent.norx :: post)).2).1 ≠ 0) ∧
      ((address_exchange s pre).1 = none ∧
        (address_exchange s pre).2.tx =
          s.tx ++ List.replicate ((rx_bytes pre).count 63) (SerialOut.byte s.ee_pump_id))) ∧
    ((∃ p q, evs = p ++ BusEvent.rx 0xFF :: q ∧ 0xFF ∉ rx_bytes p ∧ polls_clear s p = true) ∨
      (∃ p q, evs = p ++ BusEvent.norx :: q ∧ 0xFF ∉ rx_bytes p ∧ polls_clear s p = true ∧
        (check_reset (isrs s (irq_events p))).1 ≠ 0) ∨
      (0xFF ∉ rx_bytes evs ∧ polls_clear s evs = true)) ∧
    (s.ee_pump_id = 0 ∨ s.ee_pump_id = 255 →
      (address_exchange s evs).1 = none ∧ (address_exchange s evs).2.tx = s.tx) := by
  refine ⟨?_, negotiation_cases evs s, ?_⟩
  · intro h1 h254 hmem hclear
    have hpre : ∀ rest, address_exchange s (pre ++ rest) =
        address_exchange_loop s.ee_pump_id
          (with_output (isrs s (irq_events pre)) ⟨0, 0, 255⟩
            (s.tx ++ List.replicate ((rx_bytes pre).count 63) (SerialOut.byte s.ee_pump_id)))
          rest := by
      intro rest
      rw [address_exchange_valid s _ h1 h254]
      exact address_exchange_loop_prefix s.ee_pump_id pre rest s _ _ hmem hclear
    refine ⟨?_, ?_, ?_⟩
    · rw [hpre, rx_bytes_append]
      have hp : polls_before_terminator (rx_bytes pre ++ rx_bytes (BusEvent.rx 0xFF :: post)) =
          (rx_bytes pre).count 63 := polls_before_terminator_prefix _ _ hmem
      rw [hp]
      exact ⟨rfl, rfl, rfl⟩
    · intro hl
      rw [hpre]
      have hl' : (check_reset (with_output (isrs s (irq_events pre)) ⟨0, 0, 255⟩
          (s.tx ++ List.replicate ((rx_bytes pre).count 63)
            (SerialOut.byte s.ee_pump_id)))).1 ≠ 0 := hl
      simp only [address_exchange_loop]
      rw [if_pos hl']
      exact ⟨rfl, rfl, rfl, hl⟩
    · have h := hpre []
      rw [List.append_nil] at h
      rw [h]
      exact ⟨rfl, rfl⟩
  · intro h0
    have hbad : u8 s.ee_pump_id = 0 ∨ u8 s.ee_pump_id = 255 := by
      rcases h0 with h | h <;> rw [h]
      · exact Or.inl rfl
      · exact Or.inr rfl
    have hbad' : u8 (set_led_rgb s 0 0 255).ee_pump_id = 0 ∨
        u8 (set_led_rgb s 0 0 255).ee_pump_id = 255 := hbad
    unfold address_exchange
    simp only []
    rw [if_pos hbad']
    exact ⟨rfl, address_exchange_halt_tx evs _⟩

/-- Witness for C10: id 5 answers one poll with byte 5 and returns 5 at the
terminator; after one answered poll and an empty poll with the latch clear, a
reset pulse is latched and the next empty poll returns 0xFF; id 0 does not
return. -/
theorem address_exchange_negotiates_witness :
    ((address_exchange (State.init 5 0) [BusEvent.rx 63, BusEvent.rx 0xFF]).1 = some 5 ∧
      (address_exchange (State.init 5 0) [BusEvent.rx 63, BusEvent.rx 0xFF]).2.tx =
        [SerialOut.byte 5]) ∧
    ((address_exchange (State.init 5 0)
      ((BusEvent.rx 63 :: BusEvent.norx :: reset_pulse.map BusEvent.irq) ++
        BusEvent.norx :: [BusEvent.rx 0xFF])).1 = some 0xFF ∧
      (address_exchange (State.init 5 0)
      ((BusEvent.rx 63 :: BusEvent.norx :: reset_pulse.map BusEvent.irq) ++
        BusEvent.norx :: [BusEvent.rx 0xFF])).2.tx = [SerialOut.byte 5]) ∧
    (address_exchange (State.init 0 0) [BusEvent.rx 63, BusEvent.rx 0xFF]).1 = none :=
  ⟨⟨((address_exchange_negotiates (State.init 5 0) [] [BusEvent.rx 63] []).1
        (by decide) (by decide) (by decide) rfl).1.1,
    ((address_exchange_negotiates (State.init 5 0) [] [BusEvent.rx 63] []).1
        (by decide) (by decide) (by decide) rfl).1.2.1⟩,
   ⟨(((address_exchange_negotiates (State.init 5 0) []
        (BusEvent.rx 63 :: BusEvent.norx :: reset_pulse.map BusEvent.irq)
        [BusEvent.rx 0xFF]).1 (by decide) (by decide) (by decide) rfl).2.1 (by decide)).1,
    (((address_exchange_negotiates (State.init 5 0) []
        (BusEvent.rx 63 :: BusEvent.norx :: reset_pulse.map BusEvent.irq)
        [BusEvent.rx 0xFF]).1 (by decide) (by decide) (by decide) rfl).2.1 (by decide)).2.1⟩,
   ((address_exchange_negotiates (State.init 0 0) [BusEvent.rx 63, BusEvent.rx 0xFF]
      [] []).2.2 (Or.inl rfl)).1⟩

/-! ### Over-threshold count across dispenses (C11) -/

theorem run_motor_timed_loop_eq (n : Nat) : ∀ (s : State), run_motor_timed_loop s n = s := by
  induction n with
  | zero => intro s; rfl
  | succ n ih =>
    intro s
    simp only [run_motor_timed_loop, check_reset]
    split_ifs
    · rfl
    · exact ih s

/-- With no interrupt in any gap the sections compose to `idle`. -/
theorem idle_eq_sections (render : LedFunction → Nat → color_t) (s : State) :
    idle render s = idle_interleaved render s [] [] [] [] := by
  unfold idle idle_interleaved idle_sync idle_frame idle_snapshot idle_clear idle_store isrs
  simp only [List.foldl_nil]

theorem idle_sync_ticks (s : State) :
    (idle_sync s).2.g_ticks = s.g_ticks ∧
    (idle_sync s).2.g_is_dispensing = s.g_is_dispensing ∧
    (idle_sync s).2.ee_run_time_ticks = s.ee_run_time_ticks := by
  unfold idle_sync
  simp only []
  split_ifs <;> exact ⟨rfl, rfl, rfl⟩

theorem idle_frame_ticks (render : LedFunction → Nat → color_t) (animate : Bool) (s : State) :
    (idle_frame render animate s).g_ticks = s.g_ticks ∧
    (idle_frame render animate s).g_is_dispensing = s.g_is_dispensing ∧
    (idle_frame render animate s).ee_run_time_ticks = s.ee_run_time_ticks := by
  unfold idle_frame
  split <;> exact ⟨rfl, rfl, rfl⟩

/-! ### Persistent tick flush (C12) -/

/-- C12: one call of `idle` with no session active and `g_ticks = n > 1000`
stores `(n + stored) mod 2^32` in the lifetime-total slot and sets `g_ticks` to
0; with `n ≤ 1000`, or with a session active, it leaves the stored total and
`g_ticks` unchanged; and `reset_saved_tick_count` changes nothing while a
session is active. -/
theorem idle_flushes_ticks (render : LedFunction → Nat → color_t) (s : State) :
    (s.g_is_dispensing = 0 → TICKS_SAVE_THRESHOLD < s.g_ticks →
      (idle render s).ee_run_time_ticks = u32 (s.g_ticks + s.ee_run_time_ticks) ∧
      (idle render s).g_ticks = 0) ∧
    (s.g_ticks ≤ TICKS_SAVE_THRESHOLD ∨ s.g_is_dispensing ≠ 0 →
      (idle render s).ee_run_time_ticks = s.ee_run_time_ticks ∧
      (idle render s).g_ticks = s.g_ticks) ∧
    (s.g_is_dispensing ≠ 0 → reset_saved_tick_count s = s) := by
  obtain ⟨a1, a2, a3⟩ := idle_sync_ticks s
  obtain ⟨b1, b2, b3⟩ := idle_frame_ticks render (idle_sync s).1 (idle_sync s).2
  rw [idle_eq_sections]
  unfold idle_interleaved
  simp only [isrs, List.foldl_nil, idle_snapshot, b1, b2, a1, a2]
  refine ⟨?_, ?_, ?_⟩
  · intro h1 h2
    rw [if_pos h1, if_pos h2]
    simp only [idle_store, idle_clear, b3, a3, and_self]
  · intro h
    rcases h with h | h
    · split_ifs
      · omega
      · exact ⟨b3.trans a3, b1.trans a1⟩
      · exact ⟨b3.trans a3, b1.trans a1⟩
    · rw [if_neg h]
      exact ⟨b3.trans a3, b1.trans a1⟩
  · intro h
    unfold reset_saved_tick_count
    simp only [h, ne_eq, not_false_eq_true, if_true]

/-- Witness for C12: 1500 ticks are flushed on top of a stored total of 40,
800 ticks are not, and 1500 ticks are kept while a session is active. -/
theorem idle_flushes_ticks_witness :
    ((idle (fun _ _ => ⟨0, 0, 0⟩)
        { State.init 5 40 with g_ticks := 1500 }).ee_run_time_ticks = 1540 ∧
      (idle (fun _ _ => ⟨0, 0, 0⟩) { State.init 5 40 with g_ticks := 1500 }).g_ticks = 0) ∧
    ((idle (fun _ _ => ⟨0, 0, 0⟩)
        { State.init 5 40 with g_ticks := 800 }).ee_run_time_ticks = 40 ∧
      (idle (fun _ _ => ⟨0, 0, 0⟩) { State.init 5 40 with g_ticks := 800 }).g_ticks = 800) ∧
    reset_saved_tick_count { active_state with g_ticks := 1500 } =
      { active_state with g_ticks := 1500 } :=
  ⟨(idle_flushes_ticks (fun _ _ => ⟨0, 0, 0⟩) { State.init 5 40 with g_ticks := 1500 }).1
      rfl (by decide),
   (idle_flushes_ticks (fun _ _ => ⟨0, 0, 0⟩) { State.init 5 40 with g_ticks := 800 }).2.1
      (Or.inl (by decide)),
   (idle_flushes_ticks (fun _ _ => ⟨0, 0, 0⟩) { active_state with g_ticks := 1500 }).2.2
      (by decide)⟩

/-! ### LED frame scheduling (C13) -/

theorem cdc_led (s : State) :
    (check_dispense_complete_isr s).g_sync_count = s.g_sync_count ∧
    (check_dispense_complete_isr s).g_sync = s.g_sync ∧
    (check_dispense_complete_isr s).g_pattern_t = s.g_pattern_t ∧
    (check_dispense_complete_isr s).g_sync_divisor = s.g_sync_divisor ∧
    (check_dispense_complete_isr s).g_led_function = s.g_led_function := by
  unfold check_dispense_complete_isr set_motor_speed adc_shutdown
  split_ifs <;> exact ⟨rfl, rfl, rfl, rfl, rfl⟩

theorem pcint0_halls_led (s : State) (PINB : Nat) :
    (pcint0_halls s PINB).g_sync_count = s.g_sync_count ∧
    (pcint0_halls s PINB).g_sync = s.g_sync ∧
    (pcint0_halls s PINB).g_pattern_t = s.g_pattern_t ∧
    (pcint0_halls s PINB).g_sync_divisor = s.g_sync_divisor ∧
    (pcint0_halls s PINB).g_led_function = s.g_led_function := by
  unfold pcint0_halls
  simp only []
  split_ifs <;> exact ⟨rfl, rfl, rfl, rfl, rfl⟩

/-- A sync-line transition seen by `PCINT0_vect` adds one to the sync count and
leaves the rest of the animation state alone. -/
theorem PCINT0_vect_sync (s : State) (PINB : Nat) (h : PINB &&& (1 <<< PINB2) ≠ s.g_sync) :
    (PCINT0_vect s PINB).g_sync_count = u32 (s.g_sync_count + 1) ∧
    (PCINT0_vect s PINB).g_pattern_t = s.g_pattern_t ∧
    (PCINT0_vect s PINB).g_sync_divisor = s.g_sync_divisor ∧
    (PCINT0_vect s PINB).g_led_function = s.g_led_function := by
  obtain ⟨a1, a2, a3, a4, a5⟩ := pcint0_halls_led s PINB
  obtain ⟨b1, b2, b3, b4, b5⟩ := cdc_led (pcint0_halls s PINB)
  rw [PCINT0_vect_eq]
  unfold pcint0_sync
  simp only []
  rw [if_pos (by rw [b2, a2]; exact h)]
  simp only [b1, a1, b3, a3, b4, a4, b5, a5, and_self]

/-- The animation part of `idle` with a pattern installed. -/
theorem idle_animation (render : LedFunction → Nat → color_t) (s : State) (f : LedFunction)
    (hf : s.g_led_function = some f) :
    (idle render s).g_sync_divisor = s.g_sync_divisor ∧
    (idle render s).g_led_function = s.g_led_function ∧
    if s.g_sync_count ≥ s.g_sync_divisor then
      (idle render s).g_sync_count = 0 ∧ (idle render s).g_pattern_t = u32 (s.g_pattern_t + 1)
    else
      (idle render s).g_sync_count = s.g_sync_count ∧
      (idle render s).g_pattern_t = s.g_pattern_t := by
  unfold idle set_led_rgb_no_delay
  simp only [hf]
  split_ifs <;> simp_all

/-- The frame counter and sync count after `n` transitions, from sync count
`c < d` and frame counter `t`. -/
theorem tick_after_each_frames (render : LedFunction → Nat → color_t) (f : LedFunction)
    (d : Nat) (hd : 1 ≤ d) (hd255 : d ≤ 255) (ps : List Nat) : ∀ (s : State),
    s.g_sync_divisor = d → s.g_led_function = some f → s.g_sync_count < d →
    sync_transitions render s ps →
    s.g_pattern_t + (s.g_sync_count + ps.length) / d < 2 ^ 32 →
    (tick_after_each render s ps).g_pattern_t =
      s.g_pattern_t + (s.g_sync_count + ps.length) / d ∧
    (tick_after_each render s ps).g_sync_count = (s.g_sync_count + ps.length) % d := by
  induction ps with
  | nil =>
    intro s _ _ hc _ _
    simp only [tick_after_each, List.foldl_nil, List.length_nil, Nat.add_zero]
    rw [Nat.div_eq_of_lt hc, Nat.mod_eq_of_lt hc]
    exact ⟨rfl, rfl⟩
  | cons p ps ih =>
    intro s hdiv hf hc htr hlt
    obtain ⟨hp, hrest⟩ := htr
    obtain ⟨a1, a2, a3, a4⟩ := PCINT0_vect_sync s p hp
    rw [u32, Nat.mod_eq_of_lt (by omega)] at a1
    obtain ⟨b1, b2, b3⟩ := idle_animation render (PCINT0_vect s p) f (by rw [a4, hf])
    rw [a1, a2, a3, hdiv] at b3
    rw [a3, hdiv] at b1
    rw [a4, hf] at b2
    simp only [List.length_cons] at hlt
    have hfold : tick_after_each render s (p :: ps) =
        tick_after_each render (idle render (PCINT0_vect s p)) ps := rfl
    rw [hfold]
    by_cases hge : s.g_sync_count + 1 ≥ d
    · rw [if_pos hge] at b3
      have hcd : s.g_sync_count + 1 = d := by omega
      have hsum : s.g_sync_count + (ps.length + 1) = d + ps.length := by omega
      have hdivd : (d + ps.length) / d = ps.length / d + 1 := Nat.add_div_left _ (by omega)
      rw [hsum, hdivd] at hlt
      have hq : s.g_pattern_t + 1 ≤ s.g_pattern_t + (ps.length / d + 1) :=
        Nat.add_le_add_left (Nat.le_add_left 1 _) _
      have hpt : u32 (s.g_pattern_t + 1) = s.g_pattern_t + 1 :=
        Nat.mod_eq_of_lt (Nat.lt_of_le_of_lt hq hlt)
      have hre : s.g_pattern_t + 1 + ps.length / d = s.g_pattern_t + (ps.length / d + 1) := by
        rw [Nat.add_assoc, Nat.add_comm 1]
      obtain ⟨r1, r2⟩ := ih (idle render (PCINT0_vect s p)) b1 b2 (by rw [b3.1]; omega) hrest
        (by rw [b3.1, b3.2, hpt, Nat.zero_add, hre]; exact hlt)
      rw [r1, r2, b3.1, b3.2, hpt, Nat.zero_add]
      simp only [List.length_cons]
      rw [hsum, hdivd, Nat.add_mod_left]
      exact ⟨hre, rfl⟩
    · rw [if_neg hge] at b3
      have hsum : s.g_sync_count + (ps.length + 1) = s.g_sync_count + 1 + ps.length := by omega
      rw [hsum] at hlt
      obtain ⟨r1, r2⟩ := ih (idle render (PCINT0_vect s p)) b1 b2 (by rw [b3.1]; omega) hrest
        (by rw [b3.1, b3.2]; exact hlt)
      rw [r1, r2, b3.1, b3.2]
      simp only [List.length_cons]
      rw [hsum]
      exact ⟨rfl, rfl⟩

/-- C13: with divisor `d` in 1..255 and a pattern installed, starting from sync
count 0 and frame counter 0, when `idle` runs after every observed sync-line
transition the frame counter after `n` transitions is `n / d` (as long as that
fits the 32-bit counter) and the sync count is `n mod d`: the counter advances
on each `d`-th transition and on no other. -/
theorem frame_counter_after_transitions (render : LedFunction → Nat → color_t) (s : State)
    (d : Nat) (f : LedFunction) (ps : List Nat) (hd : 1 ≤ d) (hd255 : d ≤ 255)
    (hdiv : s.g_sync_divisor = d) (hf : s.g_led_function = some f)
    (hc : s.g_sync_count = 0) (ht : s.g_pattern_t = 0)
    (htr : sync_transitions render s ps) (h32 : ps.length / d < 2 ^ 32) :
    (tick_after_each render s ps).g_pattern_t = ps.length / d ∧
    (tick_after_each render s ps).g_sync_count = ps.length % d := by
  have h := tick_after_each_frames render f d hd hd255 ps s hdiv hf (by rw [hc]; omega) htr
    (by rw [hc, ht, Nat.zero_add, Nat.zero_add]; exact h32)
  rw [hc, ht, Nat.zero_add, Nat.zero_add] at h
  exact h

/-- Witness for C13: divisor 4; no frame after three transitions, one frame
after the fourth. -/
theorem frame_counter_after_transitions_witness :
    (tick_after_each (fun _ _ => ⟨0, 0, 0⟩)
      (set_led_pattern (State.init 5 0) (some LedFunction.led_pattern_hue) 4)
      [4, 0, 4]).g_pattern_t = 0 ∧
    (tick_after_each (fun _ _ => ⟨0, 0, 0⟩)
      (set_led_pattern (State.init 5 0) (some LedFunction.led_pattern_hue) 4)
      [4, 0, 4, 0]).g_pattern_t = 1 :=
  ⟨(frame_counter_after_transitions (fun _ _ => ⟨0, 0, 0⟩)
      (set_led_pattern (State.init 5 0) (some LedFunction.led_pattern_hue) 4) 4
      LedFunction.led_pattern_hue [4, 0, 4] (by decide) (by decide) rfl rfl rfl rfl
      ⟨by decide, by decide, by decide, trivial⟩ (by decide)).1,
   (frame_counter_after_transitions (fun _ _ => ⟨0, 0, 0⟩)
      (set_led_pattern (State.init 5 0) (some LedFunction.led_pattern_hue) 4) 4
      LedFunction.led_pattern_hue [4, 0, 4, 0] (by decide) (by decide) rfl rfl rfl rfl
      ⟨by decide, by decide, by decide, by decide, trivial⟩ (by decide)).1⟩

/-! ### Installing a pattern (C14) -/

/-- C14 fails as stated: after three sync-line transitions the sync count is 3,
and `set_led_pattern` with a pattern and divisor 4 leaves it at 3 instead of
resetting it to zero. -/
theorem set_led_pattern_keeps_sync_count :
    (isrs (State.init 5 0) [Irq.PCINT0 4, Irq.PCINT0 0, Irq.PCINT0 4]).g_sync_count = 3 ∧
    (set_led_pattern (isrs (State.init 5 0) [Irq.PCINT0 4, Irq.PCINT0 0, Irq.PCINT0 4])
      (some LedFunction.led_pattern_hue) 4).g_sync_count = 3 := by
  exact ⟨rfl, rfl⟩

/-- C14 as amended: for every prior state and every argument, `set_led_pattern`
resets the frame counter `g_pattern_t` to zero, installs the pattern and the
divisor (as a `uint8_t`), and leaves the sync edge count `g_sync_count`
unchanged; with a `NULL` pattern it also forces the LED output to (0,0,0), and
with any other pattern it leaves the LED output alone. -/
theorem set_led_pattern_installs (s : State) (func : Option LedFunction) (d : Nat) :
    (set_led_pattern s func d).g_pattern_t = 0 ∧
    (set_led_pattern s func d).g_sync_divisor = u8 d ∧
    (set_led_pattern s func d).g_led_function = func ∧
    (set_led_pattern s func d).g_sync_count = s.g_sync_count ∧
    (func = none → (set_led_pattern s func d).led = ⟨0, 0, 0⟩) ∧
    (func ≠ none → (set_led_pattern s func d).led = s.led) := by
  unfold set_led_pattern set_led_rgb
  refine ⟨rfl, rfl, rfl, ?_, ?_, ?_⟩
  · split_ifs <;> rfl
  · intro h; rw [if_pos h]
  · intro h; rw [if_neg h]

/-- Witness for the amended C14: switching the LED off and installing a
pattern on a red LED. -/
theorem set_led_pattern_installs_witness :
    (set_led_pattern (set_led_rgb (State.init 5 0) 255 0 0) none 255).led = ⟨0, 0, 0⟩ ∧
    (set_led_pattern (set_led_rgb (State.init 5 0) 255 0 0)
      (some LedFunction.led_pattern_hue) 20).led = ⟨255, 0, 0⟩ :=
  ⟨(set_led_pattern_installs (set_led_rgb (State.init 5 0) 255 0 0) none 255).2.2.2.2.1 rfl,
   (set_led_pattern_installs (set_led_rgb (State.init 5 0) 255 0 0)
      (some LedFunction.led_pattern_hue) 20).2.2.2.2.2 (by decide)⟩

/-! ### Dispatcher address filter (C15) -/

/-- C15: for every negotiated id (and every value of the broadcast address),
one iteration of the dispatcher loop runs the command of a valid packet when
its destination is the id or the broadcast address, and then the state is the
one `main_dispatch` produces; a CRC-failed unit and a valid packet addressed to
any other id leave the whole state unchanged, the serial output included (no
reply), and the loop goes on; no unit that is not a valid packet for the id or
the broadcast address changes the state. -/
theorem dispatcher_address_filter (DEST_BROADCAST id : Nat) (s : State) (u : Received) :
    (u.code = CommResult.COMM_OK → (u.p.dest = DEST_BROADCAST ∨ u.p.dest = id) →
      main_loop_body DEST_BROADCAST id s u = (true, main_dispatch s u.p u.hw)) ∧
    (u.code = CommResult.COMM_CRC_FAIL → main_loop_body DEST_BROADCAST id s u = (true, s)) ∧
    (u.code = CommResult.COMM_OK → u.p.dest ≠ DEST_BROADCAST → u.p.dest ≠ id →
      main_loop_body DEST_BROADCAST id s u = (true, s) ∧
      (main_loop_body DEST_BROADCAST id s u).2.tx = s.tx) ∧
    (¬ (u.code = CommResult.COMM_OK ∧ (u.p.dest = DEST_BROADCAST ∨ u.p.dest = id)) →
      (main_loop_body DEST_BROADCAST id s u).2 = s) := by
  refine ⟨?_, ?_, ?_, ?_⟩
  · intro hok hdest
    unfold main_loop_body
    rw [if_neg (by rw [hok]; decide), if_neg (by rw [hok]; decide), if_pos ⟨hok, hdest⟩]
  · intro hcrc
    unfold main_loop_body
    rw [if_pos hcrc]
  · intro hok hb hid
    have h : main_loop_body DEST_BROADCAST id s u = (true, s) := by
      unfold main_loop_body
      rw [if_neg (by rw [hok]; decide), if_neg (by rw [hok]; decide),
        if_neg (by rintro ⟨_, h | h⟩ <;> contradiction)]
    rw [h]
    exact ⟨rfl, rfl⟩
  · intro hn
    unfold main_loop_body
    split_ifs <;> rfl

/-- Witness for C15: node 7 runs a broadcast dispense-by-ticks(100), skips a
CRC-failed unit and ignores the same packet addressed to node 3. -/
theorem dispatcher_address_filter_witness :
    (main_loop_body 255 7 (State.init 7 0)
      ⟨CommResult.COMM_OK, ⟨255, PacketType.PACKET_TICK_DISPENSE, 0, 0, 100⟩,
        ⟨fun _ => (0, 0), []⟩⟩).2.g_dispense_target_ticks = 100 ∧
    main_loop_body 255 7 (State.init 7 0)
      ⟨CommResult.COMM_CRC_FAIL, ⟨255, PacketType.PACKET_TICK_DISPENSE, 0, 0, 100⟩,
        ⟨fun _ => (0, 0), []⟩⟩ = (true, State.init 7 0) ∧
    main_loop_body 255 7 (State.init 7 0)
      ⟨CommResult.COMM_OK, ⟨3, PacketType.PACKET_TICK_DISPENSE, 0, 0, 100⟩,
        ⟨fun _ => (0, 0), []⟩⟩ = (true, State.init 7 0) :=
  ⟨(congrArg (fun r => r.2.g_dispense_target_ticks)
      ((dispatcher_address_filter 255 7 (State.init 7 0)
        ⟨CommResult.COMM_OK, ⟨255, PacketType.PACKET_TICK_DISPENSE, 0, 0, 100⟩,
          ⟨fun _ => (0, 0), []⟩⟩).1 rfl (Or.inl rfl))).trans rfl,
   (dispatcher_address_filter 255 7 (State.init 7 0)
      ⟨CommResult.COMM_CRC_FAIL, ⟨255, PacketType.PACKET_TICK_DISPENSE, 0, 0, 100⟩,
        ⟨fun _ => (0, 0), []⟩⟩).2.1 rfl,
   ((dispatcher_address_filter 255 7 (State.init 7 0)
      ⟨CommResult.COMM_OK, ⟨3, PacketType.PACKET_TICK_DISPENSE, 0, 0, 100⟩,
        ⟨fun _ => (0, 0), []⟩⟩).2.2.1 rfl (by decide) (by decide)).1⟩

/-! ### Session invariant (C16) -/

/-- A session whose target is 0 is never ended by the sensor-edge handlers. -/
theorem zero_target_never_completes (es : List Irq) : ∀ (s : State),
    (∀ e ∈ es, is_edge e = true) → s.g_dispense_target_ticks = 0 →
    (isrs s es).g_dispense_target_ticks = 0 ∧
    (isrs s es).g_is_dispensing = s.g_is_dispensing ∧ (isrs s es).OCR0B = s.OCR0B := by
  induction es with
  | nil => intro s _ h; exact ⟨h, rfl, rfl⟩
  | cons e es ih =>
    intro s hall h0
    have hs := isr_edge_session s e (hall e (List.mem_cons_self _ _))
    rw [if_neg (by rw [h0]; simp)] at hs
    obtain ⟨a, b, c⟩ := ih (isr s e) (fun x hx => hall x (List.mem_cons_of_mem _ hx))
      (by rw [hs.1, h0])
    simp only [isrs, List.foldl_cons] at a b c ⊢
    rw [a, b, c, hs.2.1, hs.2.2]
    exact ⟨rfl, rfl, rfl⟩

/-- C16, evaluated at the failing input: in the state the dispatcher starts in
(tick count 0, no session) `dispense_ticks 0` sets `g_is_dispensing = 1` and
drives the motor at 255 while `g_dispense_target_ticks` stays 0, so the session
is active without a target; three sensor edges later it is still active with
the motor running. -/
theorem zero_tick_dispense_breaks_invariant :
    (main_loop_init (State.init 5 0)).g_is_dispensing = 0 ∧
    (main_loop_init (State.init 5 0)).g_dispense_target_ticks = 0 ∧
    (dispense_ticks (main_loop_init (State.init 5 0)) 0).g_is_dispensing = 1 ∧
    (dispense_ticks (main_loop_init (State.init 5 0)) 0).g_dispense_target_ticks = 0 ∧
    motor_speed (dispense_ticks (main_loop_init (State.init 5 0)) 0) = 255 ∧
    (isrs (dispense_ticks (main_loop_init (State.init 5 0)) 0)
      [Irq.PCINT0 1, Irq.PCINT2 64, Irq.PCINT0 3]).g_is_dispensing = 1 ∧
    (isrs (dispense_ticks (main_loop_init (State.init 5 0)) 0)
      [Irq.PCINT0 1, Irq.PCINT2 64, Irq.PCINT0 3]).g_ticks = 3 ∧
    motor_speed (isrs (dispense_ticks (main_loop_init (State.init 5 0)) 0)
      [Irq.PCINT0 1, Irq.PCINT2 64, Irq.PCINT0 3]) = 255 := by
  refine ⟨?_, ?_, ?_, ?_, ?_, ?_, ?_, ?_⟩ <;> rfl

/-! ### Bounded overrun (C17) -/

theorem hall_changes_le_two (s : State) (e : Irq) : hall_changes s e ≤ 2 := by
  cases e <;> simp only [hall_changes] <;> first | omega | (split_ifs <;> omega)

/-- One sensor-edge handler invocation keeps the session invariant "active with
the count below the target, or inactive without a target", and if it ends the
session the count is at most one above the target. -/
theorem isr_edge_overrun (tg : Nat) (htg : tg < 2 ^ 32) (s : State) (e : Irq)
    (he : is_edge e = true) (h32 : s.g_ticks < 2 ^ 32)
    (hinv : (s.g_is_dispensing = 1 ∧ s.g_dispense_target_ticks = tg ∧ s.g_ticks < tg) ∨
      (s.g_is_dispensing = 0 ∧ s.g_dispense_target_ticks = 0)) :
    (isr s e).g_ticks < 2 ^ 32 ∧
    (((isr s e).g_is_dispensing = 1 ∧ (isr s e).g_dispense_target_ticks = tg ∧
        (isr s e).g_ticks < tg) ∨
      ((isr s e).g_is_dispensing = 0 ∧ (isr s e).g_dispense_target_ticks = 0)) ∧
    (s.g_is_dispensing ≠ 0 → (isr s e).g_is_dispensing = 0 →
      tg ≤ (isr s e).g_ticks ∧ (isr s e).g_ticks ≤ tg + 1) := by
  have ht := isr_edge_ticks s e he h32
  have hk := hall_changes_le_two s e
  have hs := isr_edge_session s e he
  rw [u32] at ht
  have hlt : (isr s e).g_ticks < 2 ^ 32 := by rw [ht]; exact Nat.mod_lt _ (by norm_num)
  have hle : (isr s e).g_ticks ≤ s.g_ticks + 2 := by
    rw [ht]; exact Nat.le_trans (Nat.mod_le _ _) (by omega)
  refine ⟨hlt, ?_, ?_⟩
  · rcases hinv with ⟨a, b, c⟩ | ⟨a, b⟩
    · split_ifs at hs with hcond
      · exact Or.inr ⟨hs.2.1, hs.1⟩
      · left
        refine ⟨hs.2.1.trans a, hs.1.trans b, ?_⟩
        rw [b] at hcond
        omega
    · rw [if_neg (by rw [b]; simp)] at hs
      exact Or.inr ⟨hs.2.1.trans a, hs.1.trans b⟩
  · intro hact hend
    rcases hinv with ⟨a, b, c⟩ | ⟨a, b⟩
    · split_ifs at hs with hcond
      · rw [b] at hcond
        exact ⟨hcond.2, by omega⟩
      · rw [hs.2.1, a] at hend
        exact absurd hend (by decide)
    · exact absurd a hact

theorem isrs_edges_overrun (tg : Nat) (htg : tg < 2 ^ 32) (es : List Irq) : ∀ (s : State),
    (∀ e ∈ es, is_edge e = true) → s.g_ticks < 2 ^ 32 →
    ((s.g_is_dispensing = 1 ∧ s.g_dispense_target_ticks = tg ∧ s.g_ticks < tg) ∨
      (s.g_is_dispensing = 0 ∧ s.g_dispense_target_ticks = 0)) →
    (isrs s es).g_ticks < 2 ^ 32 ∧
    (((isrs s es).g_is_dispensing = 1 ∧ (isrs s es).g_dispense_target_ticks = tg ∧
        (isrs s es).g_ticks < tg) ∨
      ((isrs s es).g_is_dispensing = 0 ∧ (isrs s es).g_dispense_target_ticks = 0)) := by
  induction es with
  | nil => intro s _ h32 hinv; exact ⟨h32, hinv⟩
  | cons e es ih =>
    intro s hall h32 hinv
    obtain ⟨a, b, _⟩ := isr_edge_overrun tg htg s e (hall e (List.mem_cons_self _ _)) h32 hinv
    exact ih (isr s e) (fun x hx => hall x (List.mem_cons_of_mem _ hx)) a b

/-- C17: a session is started by `dispense_ticks T` with `T ≥ 1` and
`g_ticks + T < 2^32`; then sensor-edge handlers run, each registering zero, one
or two changes.  Whenever a handler invocation ends the session the count is at
least the target and at most one above it, and whenever the session is still
active after a handler invocation the count is below the target. -/
theorem overrun_bounded (s : State) (T : Nat) (pre : List Irq) (e : Irq)
    (hidle : s.g_is_dispensing = 0) (hT : 1 ≤ T) (hc : s.g_ticks + T < 2 ^ 32)
    (hpre : ∀ x ∈ pre, is_edge x = true) (he : is_edge e = true) :
    ((isrs (dispense_ticks s T) pre).g_is_dispensing ≠ 0 →
      (isr (isrs (dispense_ticks s T) pre) e).g_is_dispensing = 0 →
      s.g_ticks + T ≤ (isr (isrs (dispense_ticks s T) pre) e).g_ticks ∧
      (isr (isrs (dispense_ticks s T) pre) e).g_ticks ≤ s.g_ticks + T + 1) ∧
    ((isr (isrs (dispense_ticks s T) pre) e).g_is_dispensing ≠ 0 →
      (isr (isrs (dispense_ticks s T) pre) e).g_ticks < s.g_ticks + T ∧
      (isr (isrs (dispense_ticks s T) pre) e).g_dispense_target_ticks = s.g_ticks + T) := by
  obtain ⟨d1, d2, d3, _⟩ := dispense_ticks_fields s T hidle
  rw [u32, Nat.mod_eq_of_lt hc] at d2
  obtain ⟨p1, p2⟩ := isrs_edges_overrun (s.g_ticks + T) hc pre (dispense_ticks s T) hpre
    (by rw [d1]; omega) (Or.inl ⟨d3, d2, by rw [d1]; omega⟩)
  obtain ⟨_, q2, q3⟩ := isr_edge_overrun (s.g_ticks + T) hc _ e he p1 p2
  refine ⟨q3, ?_⟩
  intro hact
  rcases q2 with ⟨_, b, c⟩ | ⟨a, _⟩
  · exact ⟨c, b⟩
  · exact absurd a hact

/-- Witness for C17: target 2; the second handler invocation registers two
changes at once and ends the session one tick above the target. -/
theorem overrun_bounded_witness :
    (isr (isrs (dispense_ticks (State.init 5 0) 2) [Irq.PCINT0 1]) (Irq.PCINT2 192)).g_ticks
      ≤ 0 + 2 + 1 ∧
    (isr (isrs (dispense_ticks (State.init 5 0) 2) []) (Irq.PCINT0 1)).g_ticks < 0 + 2 :=
  ⟨((overrun_bounded (State.init 5 0) 2 [Irq.PCINT0 1] (Irq.PCINT2 192) rfl (by decide)
      (by decide) (by decide) rfl).1 (by decide) rfl).2,
   ((overrun_bounded (State.init 5 0) 2 [] (Irq.PCINT0 1) rfl (by decide)
      (by decide) (by decide) rfl).2 (by decide)).1⟩

/-! ### Reset-edge polarity (C18) -/

/-- C18 fails as stated: at time 10 the handler sees the line low (falling edge)
and records no timestamp; two time units later it sees the line high (rising
edge) and does not latch, it records the timestamp 13 instead. -/
theorem falling_then_rising_does_not_latch :
    (isrs (State.init 5 0) (List.replicate 10 Irq.TIMER1_OVF)).g_time = 10 ∧
    (isrs (State.init 5 0)
      (List.replicate 10 Irq.TIMER1_OVF ++ [Irq.INT0 0])).g_reset_fe_time = 0 ∧
    (isrs (State.init 5 0) (List.replicate 10 Irq.TIMER1_OVF ++
      [Irq.INT0 0, Irq.TIMER1_OVF, Irq.TIMER1_OVF, Irq.INT0 4])).g_reset = 0 ∧
    (isrs (State.init 5 0) (List.replicate 10 Irq.TIMER1_OVF ++
      [Irq.INT0 0, Irq.TIMER1_OVF, Irq.TIMER1_OVF, Irq.INT0 4])).g_reset_fe_time = 13 := by
  refine ⟨?_, ?_, ?_, ?_⟩ <;> rfl

theorem timer_keeps_reset (n : Nat) : ∀ (s : State),
    (isrs s (List.replicate n Irq.TIMER1_OVF)).g_reset_fe_time = s.g_reset_fe_time ∧
    (isrs s (List.replicate n Irq.TIMER1_OVF)).g_reset = s.g_reset := by
  induction n with
  | zero => intro s; exact ⟨rfl, rfl⟩
  | succ n ih =>
    intro s
    obtain ⟨a, b⟩ := ih (TIMER1_OVF_vect s)
    simp only [isrs, List.replicate_succ, List.foldl_cons, isr] at a b ⊢
    rw [a, b]
    exact ⟨rfl, rfl⟩

/-- C18 as amended: the detector records the start timestamp `g_time +
RESET_DURATION` when it handles an edge after which the line reads high (rising
edge), leaving the latch alone, and evaluates when it handles an edge after
which the line reads low (falling edge): it latches if a timestamp is recorded
and `g_time` has reached it, and clears the timestamp.  A clear latch becomes
set only in a handler run that reads the line low with a recorded timestamp not
after `g_time`; a falling-then-rising pair on a detector with no timestamp
recorded never latches. -/
theorem reset_edge_polarity (s : State) (PIND PINDlow PINDhigh n : Nat) :
    (PIND &&& (1 <<< PIND2) ≠ 0 →
      (INT0_vect s PIND).g_reset_fe_time = u32 (s.g_time + RESET_DURATION) ∧
      (INT0_vect s PIND).g_reset = s.g_reset) ∧
    (PIND &&& (1 <<< PIND2) = 0 →
      (INT0_vect s PIND).g_reset =
        (if s.g_reset_fe_time > 0 ∧ s.g_time ≥ s.g_reset_fe_time then 1 else s.g_reset) ∧
      (INT0_vect s PIND).g_reset_fe_time = 0) ∧
    (s.g_reset = 0 → (INT0_vect s PIND).g_reset ≠ 0 →
      PIND &&& (1 <<< PIND2) = 0 ∧ 0 < s.g_reset_fe_time ∧ s.g_reset_fe_time ≤ s.g_time) ∧
    (s.g_reset = 0 → s.g_reset_fe_time = 0 →
      PINDlow &&& (1 <<< PIND2) = 0 → PINDhigh &&& (1 <<< PIND2) ≠ 0 →
      (INT0_vect (isrs (INT0_vect s PINDlow) (List.replicate n Irq.TIMER1_OVF))
        PINDhigh).g_reset = 0) := by
  refine ⟨?_, ?_, ?_, ?_⟩
  · intro h
    obtain ⟨_, b, c⟩ := INT0_vect_high s PIND h
    exact ⟨b, c⟩
  · intro h
    exact INT0_vect_low s PIND h
  · intro h0 hset
    by_cases hp : PIND &&& (1 <<< PIND2) = 0
    · obtain ⟨a, _⟩ := INT0_vect_low s PIND hp
      rw [a] at hset
      split_ifs at hset with hc
      · exact ⟨hp, hc.1, hc.2⟩
      · exact absurd h0 hset
    · obtain ⟨_, _, c⟩ := INT0_vect_high s PIND hp
      rw [c] at hset
      exact absurd h0 hset
  · intro h0 hfe hlow hhigh
    obtain ⟨a, _⟩ := INT0_vect_low s PINDlow hlow
    rw [if_neg (by rw [hfe]; simp), h0] at a
    obtain ⟨_, t2⟩ := timer_keeps_reset n (INT0_vect s PINDlow)
    obtain ⟨_, _, c⟩ := INT0_vect_high
      (isrs (INT0_vect s PINDlow) (List.replicate n Irq.TIMER1_OVF)) PINDhigh hhigh
    rw [c, t2, a]

/-- Witness for the amended C18: a rising edge at time 0 records timestamp 1,
the falling edge one time unit later latches, and a falling-then-rising pair
does not. -/
theorem reset_edge_polarity_witness :
    (INT0_vect (State.init 5 0) 4).g_reset_fe_time = 1 ∧
    (INT0_vect (isrs (State.init 5 0) [Irq.INT0 4, Irq.TIMER1_OVF]) 0).g_reset = 1 ∧
    (INT0_vect (isrs (INT0_vect (State.init 5 0) 0) (List.replicate 3 Irq.TIMER1_OVF))
      4).g_reset = 0 :=
  ⟨((reset_edge_polarity (State.init 5 0) 4 0 4 3).1 (by decide)).1,
   ((reset_edge_polarity (isrs (State.init 5 0) [Irq.INT0 4, Irq.TIMER1_OVF]) 0 0 4 3).2.1
      (by decide)).1,
   (reset_edge_polarity (State.init 5 0) 4 0 4 3).2.2.2 rfl rfl (by decide) (by decide)⟩

/-! ### Tick flush under interleaving (C19) -/

theorem isr_edge_ee (s : State) (e : Irq) (he : is_edge e = true) :
    (isr s e).ee_run_time_ticks = s.ee_run_time_ticks := by
  cases e <;> simp [is_edge] at he
  · simp only [isr, PCINT0_vect_eq]
    unfold pcint0_sync check_dispense_complete_isr pcint0_halls set_motor_speed adc_shutdown
    simp only []
    split_ifs <;> rfl
  · simp only [isr, PCINT2_vect_eq]
    unfold check_dispense_complete_isr pcint2_halls set_motor_speed adc_shutdown
    simp only []
    split_ifs <;> rfl

theorem isrs_edges_ee (es : List Irq) : ∀ (s : State), (∀ e ∈ es, is_edge e = true) →
    (isrs s es).ee_run_time_ticks = s.ee_run_time_ticks := by
  induction es with
  | nil => intro s _; rfl
  | cons e es ih =>
    intro s h
    have := ih (isr s e) (fun x hx => h x (List.mem_cons_of_mem _ hx))
    simp only [isrs, List.foldl_cons] at this ⊢
    rw [this, isr_edge_ee s e (h e (List.mem_cons_self _ _))]

/-- When `idle` flushes, the count it leaves behind holds only the changes
registered after `g_ticks = 0`: whatever the handlers of `i3` counted between
the snapshot and the clearing is in neither the stored total nor `g_ticks`. -/
theorem idle_interleaved_flush (render : LedFunction → Nat → color_t) (s a : State)
    (i1 i2 i3 i4 : List Irq)
    (ha : a = isrs (idle_frame render (idle_sync s).1 (isrs (idle_sync s).2 i1)) i2)
    (h3 : ∀ e ∈ i3, is_edge e = true) (h4 : ∀ e ∈ i4, is_edge e = true)
    (hidle : a.g_is_dispensing = 0) (hn : a.g_ticks > TICKS_SAVE_THRESHOLD) :
    (idle_interleaved render s i1 i2 i3 i4).g_ticks =
      total_level_changes (idle_clear (isrs a i3)) i4 % 2 ^ 32 ∧
    (idle_interleaved render s i1 i2 i3 i4).ee_run_time_ticks =
      u32 (a.g_ticks + a.ee_run_time_ticks) := by
  unfold idle_interleaved
  simp only [idle_snapshot, ← ha]
  rw [if_pos hidle, if_pos hn]
  have ht := isrs_edges_ticks i4 (idle_clear (isrs a i3)) h4 (by simp [idle_clear])
  have he4 := isrs_edges_ee i4 (idle_clear (isrs a i3)) h4
  have he3 := isrs_edges_ee i3 a h3
  simp only [idle_store]
  rw [ht, he4]
  simp only [idle_clear, Nat.zero_add, he3, and_self]

/-- C19, evaluated at the failing interleaving: no session, `g_ticks = 1500`,
stored total 40, and one sensor edge whose handler runs between the snapshot
section and the section that clears `g_ticks`.  One level change is registered,
so the sum should go from 1540 to 1541; it is 1540 after `idle` (stored 1540,
`g_ticks` 0).  The same edge handled after the clearing is kept (`g_ticks` 1). -/
theorem idle_loses_tick_between_sections :
    hall_changes { State.init 5 40 with g_ticks := 1500 } (Irq.PCINT0 1) = 1 ∧
    (idle_interleaved (fun _ _ => ⟨0, 0, 0⟩) { State.init 5 40 with g_ticks := 1500 }
      [] [] [Irq.PCINT0 1] []).ee_run_time_ticks = 1540 ∧
    (idle_interleaved (fun _ _ => ⟨0, 0, 0⟩) { State.init 5 40 with g_ticks := 1500 }
      [] [] [Irq.PCINT0 1] []).g_ticks = 0 ∧
    (idle_interleaved (fun _ _ => ⟨0, 0, 0⟩) { State.init 5 40 with g_ticks := 1500 }
      [] [] [] [Irq.PCINT0 1]).ee_run_time_ticks = 1540 ∧
    (idle_interleaved (fun _ _ => ⟨0, 0, 0⟩) { State.init 5 40 with g_ticks := 1500 }
      [] [] [] [Irq.PCINT0 1]).g_ticks = 1 := by
  refine ⟨?_, ?_, ?_, ?_, ?_⟩ <;> rfl

/-! ### Aborted negotiation (C20) -/

/-- No interrupt handler clears the reset latch. -/
theorem isr_keeps_latch (s : State) (i : Irq) (h : (check_reset s).1 ≠ 0) :
    (check_reset (isr s i)).1 ≠ 0 := by
  by_cases hi : ∀ PIND, i ≠ Irq.INT0 PIND
  · simp only [check_reset] at h ⊢
    rw [isr_g_reset s i hi]
    exact h
  · push_neg at hi
    obtain ⟨PIND, rfl⟩ := hi
    simp only [check_reset, isr] at h ⊢
    by_cases hp : PIND &&& (1 <<< PIND2) = 0
    · rw [(INT0_vect_low s PIND hp).1]
      split_ifs
      · decide
      · exact h
    · rw [(INT0_vect_high s PIND hp).2.2]
      exact h

theorem isrs_keep_latch (irqs : List Irq) : ∀ (s : State), (check_reset s).1 ≠ 0 →
    (check_reset (isrs s irqs)).1 ≠ 0 := by
  induction irqs with
  | nil => intro s h; exact h
  | cons i irqs ih =>
    intro s h
    exact ih (isr s i) (isr_keeps_latch s i h)

/-- The receive loop returns either the id or, with the latch set, 0xFF. -/
theorem address_exchange_loop_result (id : Nat) (evs : List BusEvent) : ∀ (s : State) (r : Nat),
    (address_exchange_loop id s evs).1 = some r →
    r = id ∨ (r = 0xFF ∧ (check_reset (address_exchange_loop id s evs).2).1 ≠ 0) := by
  induction evs with
  | nil => intro s r h; simp [address_exchange_loop] at h
  | cons ev evs ih =>
    intro s r h
    cases ev with
    | rx ch =>
      simp only [address_exchange_loop] at h ⊢
      split_ifs at h ⊢ with h1 h2
      · left
        simp only [Option.some.injEq] at h
        exact h.symm
      · exact ih _ r h
      · exact ih _ r h
    | norx =>
      simp only [address_exchange_loop] at h ⊢
      split_ifs at h ⊢ with h1
      · right
        simp only [Option.some.injEq] at h
        exact ⟨h.symm, h1⟩
      · exact ih _ r h
    | irq i =>
      simp only [address_exchange_loop] at h ⊢
      exact ih _ r h

theorem address_exchange_result (s : State) (evs : List BusEvent) (r : Nat)
    (h : (address_exchange s evs).1 = some r) :
    (r = u8 s.ee_pump_id ∧ 1 ≤ r ∧ r ≤ 254) ∨
    (r = 0xFF ∧ (check_reset (address_exchange s evs).2).1 ≠ 0) := by
  unfold address_exchange at h ⊢
  simp only [set_led_rgb] at h ⊢
  split_ifs at h ⊢ with hbad
  rcases address_exchange_loop_result _ evs _ r h with hr | hr
  · left
    have hlt : u8 s.ee_pump_id < 256 := Nat.mod_lt _ (by norm_num)
    refine ⟨hr, ?_, ?_⟩ <;> rw [hr] <;> omega
  · right
    exact hr

theorem main_dispatch_loop_latched (DEST_BROADCAST id : Nat) (s : State) (units : List Received)
    (h : (check_reset s).1 ≠ 0) :
    (main_dispatch_loop DEST_BROADCAST id s units).received = 0 ∧
    (main_dispatch_loop DEST_BROADCAST id s units).dispatched = 0 ∧
    (main_dispatch_loop DEST_BROADCAST id s units).state = s := by
  cases units with
  | nil => exact ⟨rfl, rfl, rfl⟩
  | cons u rest =>
    unfold main_dispatch_loop
    rw [if_pos h]
    exact ⟨rfl, rfl, rfl⟩

/-- C20: `address_exchange` returns `r`, interrupt handlers may then run, and
the dispatcher loop is entered with `r` as its filter.  If `r` is 0xFF (the
negotiation was aborted by a latched reset) the loop receives no unit and
dispatches no command, whatever the bus delivers, and the reinitialisation that
follows clears the latch.  Hence whenever at least one command is dispatched,
`r` is the id read from storage and lies in [1,254]. -/
theorem aborted_negotiation_dispatches_nothing (DEST_BROADCAST : Nat) (s : State)
    (evs : List BusEvent) (irqs : List Irq) (units : List Received) (r : Nat)
    (hr : (address_exchange s evs).1 = some r) :
    (r = 0xFF →
      (main_dispatch_loop DEST_BROADCAST r
        (isrs (address_exchange s evs).2 irqs) units).received = 0 ∧
      (main_dispatch_loop DEST_BROADCAST r
        (isrs (address_exchange s evs).2 irqs) units).dispatched = 0 ∧
      (main_dispatch_loop DEST_BROADCAST r
        (isrs (address_exchange s evs).2 irqs) units).state =
          isrs (address_exchange s evs).2 irqs ∧
      (main_loop_init (main_dispatch_loop DEST_BROADCAST r
        (isrs (address_exchange s evs).2 irqs) units).state).g_reset = 0) ∧
    (0 < (main_dispatch_loop DEST_BROADCAST r
        (isrs (address_exchange s evs).2 irqs) units).dispatched →
      1 ≤ r ∧ r ≤ 254 ∧ r = u8 s.ee_pump_id) := by
  rcases address_exchange_result s evs r hr with ⟨h1, h2, h3⟩ | ⟨h1, h2⟩
  · constructor
    · intro hff
      omega
    · intro _
      exact ⟨h2, h3, h1⟩
  · obtain ⟨a, b, c⟩ := main_dispatch_loop_latched DEST_BROADCAST r _ units
      (isrs_keep_latch irqs _ h2)
    constructor
    · intro _
      exact ⟨a, b, c, rfl⟩
    · intro hpos
      rw [b] at hpos
      exact absurd hpos (by decide)

/-- Witness for C20: node 5, a reset pulse aborts the negotiation and the
queued ping is not received; with a completed negotiation the ping is
dispatched under the filter 5. -/
theorem aborted_negotiation_dispatches_nothing_witness :
    (main_dispatch_loop 255 255
      (isrs (address_exchange (State.init 5 0)
        (reset_pulse.map BusEvent.irq ++ [BusEvent.norx])).2 [Irq.TIMER1_OVF])
      [⟨CommResult.COMM_OK, ⟨255, PacketType.PACKET_PING, 0, 0, 0⟩,
        ⟨fun _ => (0, 0), []⟩⟩]).received = 0 ∧
    (1 ≤ 5 ∧ 5 ≤ 254 ∧ 5 = u8 (State.init 5 0).ee_pump_id) :=
  ⟨((aborted_negotiation_dispatches_nothing 255 (State.init 5 0)
      (reset_pulse.map BusEvent.irq ++ [BusEvent.norx]) [Irq.TIMER1_OVF]
      [⟨CommResult.COMM_OK, ⟨255, PacketType.PACKET_PING, 0, 0, 0⟩, ⟨fun _ => (0, 0), []⟩⟩]
      255 rfl).1 rfl).1,
   (aborted_negotiation_dispatches_nothing 255 (State.init 5 0) [BusEvent.rx 0xFF] []
      [⟨CommResult.COMM_OK, ⟨255, PacketType.PACKET_PING, 0, 0, 0⟩, ⟨fun _ => (0, 0), []⟩⟩]
      5 rfl).2 (by decide)⟩

/-! ### Lifetime of the reset latch (C9) -/

theorem update_liquid_level_fold_g_reset (samples : Nat → Nat × Nat) (l : List Nat) :
    ∀ (acc : Nat × State),
      (l.foldl
        (fun (acc : Nat × State) i =>
          let x := adc_read acc.2 (samples i).1 (samples i).2
          (u16 (acc.1 + x.1), x.2)) acc).2.g_reset = acc.2.g_reset := by
  induction l with
  | nil => intro acc; rfl
  | cons i l ih =>
    intro acc
    rw [List.foldl_cons, ih]
    rfl

theorem update_liquid_level_g_reset (s : State) (samples : Nat → Nat × Nat) :
    (update_liquid_level s samples).g_reset = s.g_reset := by
  have h := update_liquid_level_fold_g_reset samples (List.range NUM_ADC_SAMPLES)
    (0, adc_liquid_level_setup s)
  unfold update_liquid_level
  simp only [adc_shutdown] at h ⊢
  rw [h]
  rfl

theorem comm_test_fold_g_reset (rx : List Nat) : ∀ (s : State),
    (rx.foldl (fun s ch => serial_tx s ch) s).g_reset = s.g_reset := by
  induction rx with
  | nil => intro s; rfl
  | cons ch rx ih => intro s; rw [List.foldl_cons, ih]; rfl

theorem comm_test_g_reset (s : State) (rx : List Nat) :
    (comm_test s rx).g_reset = s.g_reset := by
  unfold comm_test
  simp only []
  split_ifs
  · rfl
  · rw [comm_test_fold_g_reset]; rfl

theorem dispense_ticks_g_reset (s : State) (T : Nat) :
    (dispense_ticks s T).g_reset = s.g_reset := by
  unfold dispense_ticks set_motor_speed
  simp only []
  split_ifs <;> rfl

/-- No command writes the reset latch, whatever copy of the fault flag the
switch tests. -/
theorem main_switch_g_reset (cs : Nat) (s : State) (p : packet_t) (hw : HwInput) :
    (main_switch cs s p hw).g_reset = s.g_reset := by
  obtain ⟨dest, type, b, w, d⟩ := p
  cases type with
  | PACKET_UPDATE_LIQUID_LEVEL => exact update_liquid_level_g_reset s hw.samples
  | PACKET_COMM_TEST => exact comm_test_g_reset s hw.rx
  | PACKET_RESET_SAVED_TICK_COUNT =>
    simp only [main_switch, reset_saved_tick_count]
    split_ifs <;> rfl
  | PACKET_SET_MOTOR_SPEED => simp only [main_switch]; split_ifs <;> rfl
  | PACKET_TICK_DISPENSE =>
    simp only [main_switch]
    split_ifs
    · exact dispense_ticks_g_reset s d
    · rfl
  | PACKET_TIME_DISPENSE =>
    simp only [main_switch, run_motor_timed, run_motor_timed_loop_eq]
    split_ifs <;> rfl
  | PACKET_LED_IDLE => simp only [main_switch]; split_ifs <;> rfl
  | PACKET_LED_DISPENSE => simp only [main_switch]; split_ifs <;> rfl
  | PACKET_LED_DRINK_DONE => simp only [main_switch]; split_ifs <;> rfl
  | PACKET_LED_CLEAN => simp only [main_switch]; split_ifs <;> rfl
  | _ => rfl

theorem check_reset_of_g_reset (s t : State) (h : t.g_reset = s.g_reset) :
    (check_reset t).1 = (check_reset s).1 := by
  simp only [check_reset, h]

theorem idle_sync_g_reset (s : State) : (idle_sync s).2.g_reset = s.g_reset := by
  unfold idle_sync
  simp only []
  split_ifs <;> rfl

theorem idle_frame_g_reset (render : LedFunction → Nat → color_t) (animate : Bool) (s : State) :
    (idle_frame render animate s).g_reset = s.g_reset := by
  unfold idle_frame
  split <;> rfl

/-- A dispatched command, with handlers between the flag copy and the switch,
does not clear a set latch. -/
theorem main_dispatch_interleaved_keeps_latch (s : State) (p : packet_t) (hw : HwInput)
    (irqs : List Irq) (h : (check_reset s).1 ≠ 0) :
    (check_reset (main_dispatch_interleaved s p hw irqs)).1 ≠ 0 := by
  unfold main_dispatch_interleaved
  rw [check_reset_of_g_reset _ _ (main_switch_g_reset _ _ p hw)]
  exact isrs_keep_latch irqs s h

/-- An `idle` call, with handlers between its sections, does not clear a set
latch. -/
theorem idle_interleaved_keeps_latch (render : LedFunction → Nat → color_t) (s : State)
    (i1 i2 i3 i4 : List Irq) (h : (check_reset s).1 ≠ 0) :
    (check_reset (idle_interleaved render s i1 i2 i3 i4)).1 ≠ 0 := by
  have h1 : (check_reset (isrs (idle_sync s).2 i1)).1 ≠ 0 :=
    isrs_keep_latch i1 _ (by rw [check_reset_of_g_reset _ _ (idle_sync_g_reset s)]; exact h)
  have h2 : (check_reset (isrs (idle_frame render (idle_sync s).1
      (isrs (idle_sync s).2 i1)) i2)).1 ≠ 0 :=
    isrs_keep_latch i2 _
      (by rw [check_reset_of_g_reset _ _ (idle_frame_g_reset render _ _)]; exact h1)
  have h3 := isrs_keep_latch i3 _ h2
  unfold idle_interleaved
  simp only []
  split_ifs
  · have h4 := isrs_keep_latch i4 (idle_clear (isrs (isrs (idle_frame render (idle_sync s).1
      (isrs (idle_sync s).2 i1)) i2) i3)) h3
    exact h4
  · exact isrs_keep_latch i4 _ h3
  · exact isrs_keep_latch i4 _ h3

theorem address_exchange_halt_keeps_latch (evs : List BusEvent) : ∀ (s : State),
    (check_reset s).1 ≠ 0 → (check_reset (address_exchange_halt s evs)).1 ≠ 0 := by
  induction evs with
  | nil => intro s h; exact h
  | cons ev evs ih =>
    intro s h
    cases ev with
    | rx ch => exact ih s h
    | norx => exact ih s h
    | irq i => exact ih (isr s i) (isr_keeps_latch s i h)

theorem address_exchange_loop_keeps_latch (id : Nat) (evs : List BusEvent) : ∀ (s : State),
    (check_reset s).1 ≠ 0 → (check_reset (address_exchange_loop id s evs).2).1 ≠ 0 := by
  induction evs with
  | nil => intro s h; exact h
  | cons ev evs ih =>
    intro s h
    cases ev with
    | rx ch =>
      simp only [address_exchange_loop]
      split_ifs
      · exact h
      · exact ih _ h
      · exact ih _ h
    | norx =>
      simp only [address_exchange_loop]
      rw [if_pos h]
      exact h
    | irq i => exact ih (isr s i) (isr_keeps_latch s i h)

/-- Address negotiation does not clear a set latch. -/
theorem address_exchange_keeps_latch (s : State) (evs : List BusEvent)
    (h : (check_reset s).1 ≠ 0) : (check_reset (address_exchange s evs).2).1 ≠ 0 := by
  unfold address_exchange
  simp only []
  split_ifs
  · exact address_exchange_halt_keeps_latch evs _ h
  · exact address_exchange_loop_keeps_latch _ evs _ h

theorem perform_keeps_latch (render : LedFunction → Nat → color_t) (s : State) (a : Activity)
    (h : (check_reset s).1 ≠ 0) : (check_reset (perform render s a)).1 ≠ 0 := by
  cases a with
  | negotiate evs => exact address_exchange_keeps_latch s evs h
  | poll => exact h
  | dispatch p hw irqs => exact main_dispatch_interleaved_keeps_latch s p hw irqs h
  | tick i1 i2 i3 i4 => exact idle_interleaved_keeps_latch render s i1 i2 i3 i4 h
  | irq i => exact isr_keeps_latch s i h

/-- Nothing that runs between two reinitialisations clears a set latch. -/
theorem perform_all_keeps_latch (render : LedFunction → Nat → color_t) (l : List Activity) :
    ∀ (s : State), (check_reset s).1 ≠ 0 → (check_reset (perform_all render s l)).1 ≠ 0 := by
  induction l with
  | nil => intro s h; exact h
  | cons a l ih =>
    intro s h
    exact ih (perform render s a) (perform_keeps_latch render s a h)

/-- C9 as amended: for a latch holding 0 or 1, `check_reset` returns non-zero
exactly when the latch is set and leaves the state, the latch included,
unchanged, so a second `check_reset` returns the same value; once it has
returned non-zero, the latch stays set and `check_reset` returns non-zero again
after any sequence of address negotiations, polls, dispatched commands, `idle`
calls and interrupt handlers (handlers running between the critical sections of
a command or of `idle` included); the latch is cleared by the reinitialisation
at the top of the main loop, after which `check_reset` returns 0. -/
theorem check_reset_reads_latch (render : LedFunction → Nat → color_t) (s : State)
    (l : List Activity) (h : s.g_reset ≤ 1) :
    ((check_reset s).1 ≠ 0 ↔ s.g_reset ≠ 0) ∧
    (check_reset s).2 = s ∧
    (check_reset (check_reset s).2).1 = (check_reset s).1 ∧
    ((check_reset s).1 ≠ 0 →
      (perform_all render (check_reset s).2 l).g_reset ≠ 0 ∧
      (check_reset (perform_all render (check_reset s).2 l)).1 ≠ 0) ∧
    (main_loop_init s).g_reset = 0 ∧
    (check_reset (main_loop_init s)).1 = 0 ∧
    (check_reset (main_loop_init (perform_all render s l))).1 = 0 := by
  refine ⟨?_, rfl, rfl, ?_, rfl, rfl, rfl⟩
  · simp only [check_reset, u8]
    omega
  · intro hs
    have hl := perform_all_keeps_latch render l s hs
    refine ⟨?_, hl⟩
    intro h0
    apply hl
    simp only [check_reset, u8]
    have h0' : (perform_all render s l).g_reset = 0 := h0
    rw [h0']
    rfl

/-- Witness for the amended C9: the state after a latching reset pulse, then a
poll, a set-motor-speed command with a reset-line handler inside it, an `idle`
call with a sensor edge inside it, another reset-line handler and an address
negotiation. -/
theorem check_reset_reads_latch_witness :
    (check_reset (isrs (State.init 5 0) reset_pulse)).2 = isrs (State.init 5 0) reset_pulse ∧
    (check_reset (perform_all (fun _ _ => ⟨0, 0, 0⟩)
      (check_reset (isrs (State.init 5 0) reset_pulse)).2
      [Activity.poll,
       Activity.dispatch ⟨5, PacketType.PACKET_SET_MOTOR_SPEED, 255, 0, 0⟩
         ⟨fun _ => (0, 0), []⟩ [Irq.INT0 4],
       Activity.tick [] [] [Irq.PCINT0 1] [],
       Activity.irq (Irq.INT0 0),
       Activity.negotiate [BusEvent.rx 63, BusEvent.norx]])).1 ≠ 0 ∧
    (check_reset (main_loop_init (isrs (State.init 5 0) reset_pulse))).1 = 0 :=
  have h := check_reset_reads_latch (fun _ _ => ⟨0, 0, 0⟩) (isrs (State.init 5 0) reset_pulse)
    [Activity.poll,
     Activity.dispatch ⟨5, PacketType.PACKET_SET_MOTOR_SPEED, 255, 0, 0⟩
       ⟨fun _ => (0, 0), []⟩ [Irq.INT0 4],
     Activity.tick [] [] [Irq.PCINT0 1] [],
     Activity.irq (Irq.INT0 0),
     Activity.negotiate [BusEvent.rx 63, BusEvent.norx]] (by decide)
  ⟨h.2.1, (h.2.2.2.1 (by decide)).2, h.2.2.2.2.2.1⟩

end Dispenser
